import Mathlib

/-!
Verification of the laser-maze solver core (Rust sources under `src/`).

The development shallowly embeds the solver's data model and algorithms:

* `Orientation`, `Token`, `TokenType` and the per-piece beam-interaction
  tables come from `src/orientation.rs` and `src/solver/token.rs`;
* `ActiveLaser`, `Checker` and the beam-simulation loop come from
  `src/solver/checker.rs` (with `src/solver_node/active_laser.rs` for the
  stepping rule);
* `SolverNode` (four fields, as pinned down by the struct literal in the
  tests of `src/solver/checker.rs`) and `LaserMazeSolver::validate/solve`
  come from `src/solver.rs`;
* the branch-generation heuristics (`forbidden_orientations`,
  `orientation_iter`, `generate_shuffled_tokens_to_be_added_branches`)
  come from `src/solver_node.rs`.

Machine integers: the Rust code uses `usize` and `u8`.  All quantities are
embedded as `Nat`; where wrapping matters (the `usize::wrapping_sub` in
`Orientation::reorient_inbound_laser`, the `u8` counters of
`LaserMazeSolver::validate`) the embedding performs the reduction
`% 2 ^ 64` / `% 2 ^ 8` explicitly.  Rust panics are modelled by `Option` /
`Except` results.
-/

namespace LaserMaze

/-- 2^64, the modulus of `usize` arithmetic (the target is 64-bit). -/
def usizeMod : Nat := 18446744073709551616

/-- `usize::wrapping_sub`, for operands below the modulus. -/
def wrappingSub (a b : Nat) : Nat := (a + (usizeMod - b)) % usizeMod

/-- `Orientation` from `src/orientation.rs`: the four beam/piece
directions, ordinal 0..3 clockwise from North. -/
inductive Orientation where
  | north
  | east
  | south
  | west
deriving DecidableEq, Repr, Fintype

/-- `Orientation::to_index`. -/
def Orientation.toIndex : Orientation → Nat
  | .north => 0
  | .east => 1
  | .south => 2
  | .west => 3

/-- `ORIENTATION_ORDER` from `src/orientation.rs`. -/
def orientationOrder : List Orientation :=
  [Orientation.north, Orientation.east, Orientation.south, Orientation.west]

/-- `Orientation::from_index`.  The Rust code indexes the static
`ORIENTATION_ORDER` array; every call site passes an index < 4, so the
fallthrough arm is dead code. -/
def Orientation.fromIndex : Nat → Orientation
  | 0 => .north
  | 1 => .east
  | 2 => .south
  | 3 => .west
  | _ => .north

/-- `Orientation::reorient_inbound_laser`: rotate a world-frame inbound
direction into the reference frame of a piece with orientation `self`,
via `laser_ordinal.wrapping_sub(piece_ordinal) % 4` on `usize`. -/
def Orientation.reorientInboundLaser (self inbound : Orientation) : Orientation :=
  Orientation.fromIndex (wrappingSub inbound.toIndex self.toIndex % 4)

/-- `Orientation::reorient_by_offset`. -/
def Orientation.reorientByOffset (self : Orientation) (offset : Nat) : Orientation :=
  Orientation.fromIndex ((self.toIndex + offset) % 4)

/-- `Orientation::reorient_outbound_laser`: rotate a reference-frame
outbound direction back into the world frame. -/
def Orientation.reorientOutboundLaser (self outbound : Orientation) : Orientation :=
  self.reorientByOffset outbound.toIndex

/-- `TokenType` from `src/solver/token.rs`. -/
inductive TokenType where
  | laser
  | targetMirror
  | beamSplitter
  | doubleMirror
  | checkpoint
  | cellBlocker
deriving DecidableEq, Repr, Fintype

/-- `TokenType::orientation_range`: the orientation indices to try for a
piece, accounting for its rotational symmetry. -/
def TokenType.orientationRange : TokenType → List Nat
  | .beamSplitter => [0, 1]
  | .doubleMirror => [0, 1]
  | .checkpoint => [0, 1]
  | .cellBlocker => [0]
  | _ => [0, 1, 2, 3]

/-- `Token` from `src/solver/token.rs`. -/
structure Token where
  type_ : TokenType
  orientation : Option Orientation
  lit : Bool
  targetLit : Option Bool
  mustLight : Bool
deriving DecidableEq, Repr

/-- `Token::new`. -/
def Token.new (type_ : TokenType) (orientation : Option Orientation)
    (mustLight : Bool) : Token :=
  { type_ := type_
    orientation := if type_ = TokenType.cellBlocker then some Orientation.north else orientation
    lit := type_ = TokenType.cellBlocker ∨ type_ = TokenType.laser
    targetLit := if type_ = TokenType.targetMirror then some false else none
    mustLight := if type_ = TokenType.targetMirror then mustLight else false }

/-- `Token::reset`: restore `lit`/`target_lit` to their construction-time
defaults. -/
def Token.reset (t : Token) : Token :=
  { t with
    lit := t.type_ = TokenType.cellBlocker ∨ t.type_ = TokenType.laser
    targetLit := if t.targetLit.isSome then some false else t.targetLit }

/-- `LaserTokenInteractionResult` from `src/solver/token.rs`. -/
inductive LaserTokenInteractionResult where
  | outboundLaser (orientation : Orientation)
  | noOutboundLaser (valid : Bool)
deriving DecidableEq, Repr

/-- `Token::reference_outbound_lasers_given_inbound_laser_direction`:
the per-type interaction table in the reference (North-facing) frame.
The Rust method mutates `self.lit` / `self.target_lit`; the embedding
returns the updated token together with the two interaction results. -/
def Token.referenceOutboundLasers (t : Token) (laserInbound : Orientation) :
    Token × LaserTokenInteractionResult × LaserTokenInteractionResult :=
  let noneValid := LaserTokenInteractionResult.noOutboundLaser true
  let noneInvalid := LaserTokenInteractionResult.noOutboundLaser false
  match t.type_ with
  | .laser =>
    match laserInbound with
    | .south => (t, noneValid, noneValid)
    | _ => (t, noneInvalid, noneInvalid)
  | .checkpoint =>
    match laserInbound with
    | .north | .south =>
      ({ t with lit := true },
        LaserTokenInteractionResult.outboundLaser laserInbound, noneValid)
    | .west | .east => (t, noneInvalid, noneInvalid)
  | .targetMirror =>
    let t := { t with lit := true }
    match laserInbound with
    | .north =>
      (t, LaserTokenInteractionResult.outboundLaser Orientation.west, noneValid)
    | .west => (t, noneInvalid, noneInvalid)
    | .south => ({ t with targetLit := some true }, noneValid, noneValid)
    | .east =>
      (t, LaserTokenInteractionResult.outboundLaser Orientation.south, noneValid)
  | .doubleMirror =>
    let t := { t with lit := true }
    match laserInbound with
    | .north =>
      (t, LaserTokenInteractionResult.outboundLaser Orientation.west, noneValid)
    | .west =>
      (t, LaserTokenInteractionResult.outboundLaser Orientation.north, noneValid)
    | .south =>
      (t, LaserTokenInteractionResult.outboundLaser Orientation.east, noneValid)
    | .east =>
      (t, LaserTokenInteractionResult.outboundLaser Orientation.south, noneValid)
  | .cellBlocker =>
    (t, LaserTokenInteractionResult.outboundLaser laserInbound, noneValid)
  | .beamSplitter =>
    let t := { t with lit := true }
    match laserInbound with
    | .north =>
      (t, LaserTokenInteractionResult.outboundLaser Orientation.west,
        LaserTokenInteractionResult.outboundLaser laserInbound)
    | .west =>
      (t, LaserTokenInteractionResult.outboundLaser Orientation.north,
        LaserTokenInteractionResult.outboundLaser laserInbound)
    | .south =>
      (t, LaserTokenInteractionResult.outboundLaser Orientation.east,
        LaserTokenInteractionResult.outboundLaser laserInbound)
    | .east =>
      (t, LaserTokenInteractionResult.outboundLaser Orientation.south,
        LaserTokenInteractionResult.outboundLaser laserInbound)

/-- Conjugate one interaction result back to the world frame
(the per-element body of the loop in
`Token::outbound_lasers_given_inbound_laser_direction`). -/
def reorientResult (p : Orientation) :
    LaserTokenInteractionResult → LaserTokenInteractionResult
  | .outboundLaser o => .outboundLaser (p.reorientOutboundLaser o)
  | x => x

/-- `Token::outbound_lasers_given_inbound_laser_direction`: reorient the
inbound world direction into the piece's frame, apply the reference
table, reorient outbound beams back.  The Rust method `expect`s a set
orientation and panics otherwise; the embedding returns `none` there. -/
def Token.outboundLasers (t : Token) (laserInbound : Orientation) :
    Option (Token × LaserTokenInteractionResult × LaserTokenInteractionResult) :=
  match t.orientation with
  | none => none
  | some p =>
    let reoriented := p.reorientInboundLaser laserInbound
    let (t', r1, r2) := t.referenceOutboundLasers reoriented
    some (t', reorientResult p r1, reorientResult p r2)

/-- `ActiveLaser` from `src/solver_node/active_laser.rs` /
`src/checker/active_laser.rs`. -/
structure ActiveLaser where
  cellIndex : Nat
  orientation : Orientation
deriving DecidableEq, Repr

/-- `ActiveLaser::next_position`: straight-line stepping on the 5×5 grid,
`none` when the beam exits the board. -/
def ActiveLaser.nextPosition (l : ActiveLaser) : Option Nat :=
  match l.orientation with
  | .north => if 20 ≤ l.cellIndex then none else some (l.cellIndex + 5)
  | .east => if l.cellIndex % 5 = 4 then none else some (l.cellIndex + 1)
  | .south => if l.cellIndex ≤ 4 then none else some (l.cellIndex - 5)
  | .west => if l.cellIndex % 5 = 0 then none else some (l.cellIndex - 1)

/-- The 25-slot grid `[Option<Token>; 25]`, embedded as a total function;
indices ≥ 25 are unused (always `none` in states built by the solver). -/
def Cells : Type := Nat → Option Token

/-- Grid update `cells[i] = v`. -/
def setCell (cells : Cells) (i : Nat) (v : Option Token) : Cells :=
  fun x => if x = i then v else cells x

/-- `SolverNode` as used by `src/solver.rs` and `src/solver/checker.rs`
(the four fields are pinned down by the struct literal in the tests of
`src/solver/checker.rs`: `cells`, `tokens_to_be_added`,
`tokens_to_be_added_shuffled`, `targets`). -/
structure SolverNode where
  cells : Cells
  tokensToBeAdded : List Token
  tokensToBeAddedShuffled : List Token
  targets : Nat

/-- `Checker` from `src/solver/checker.rs`.  `markOps` is a ghost
instrumentation counter: it counts every execution of an assignment
`self.laser_visited[..][..] = true`, so that "each (cell, direction) pair
is marked at most once" can be stated as
`markOps = number of true entries`. -/
structure Checker where
  grid : SolverNode
  activeLasers : List (Option ActiveLaser)
  laserVisited : Nat → Orientation → Bool
  unorientedOccupiedCells : List Nat
  allLasersRemainOnBoard : Bool
  markOps : Nat

/-- Set `laser_visited[c][d.to_index()] = true`. -/
def mark (v : Nat → Orientation → Bool) (c : Nat) (d : Orientation) :
    Nat → Orientation → Bool :=
  fun x y => if x = c ∧ y = d then true else v x y

/-- The mutable locals of one outer iteration of `Checker::check`
(threaded through the `for laser in self.active_lasers` loop), together
with the fields of `self` that the loop body mutates. -/
structure Mid where
  cells : Cells
  visited : Nat → Orientation → Bool
  newLasers : List (Option ActiveLaser)
  newLaserIndex : Nat
  unoriented : List Nat
  flag : Bool
  markOps : Nat

/-- Handle one `LaserTokenInteractionResult` produced at cell `next`
(the body of the `for new_laser_direction in ...` loop in
`Checker::check`).  `Except.error` models the `panic!("laser index > 3!")`
path, carrying the state at the moment of the panic. -/
def procResult (m : Mid) (next : Nat) (r : LaserTokenInteractionResult) :
    Except Mid Mid :=
  match r with
  | .noOutboundLaser valid =>
    if valid then .ok m else .ok { m with flag := false }
  | .outboundLaser o =>
    if m.visited next o then .ok m
    else
      if 3 < m.newLaserIndex then
        .error { m with visited := mark m.visited next o,
                        markOps := m.markOps + 1 }
      else
        if (m.newLasers.filterMap id).contains ⟨next, o⟩ then
          .ok { m with visited := mark m.visited next o,
                       markOps := m.markOps + 1 }
        else
          .ok { m with
            visited := mark m.visited next o
            markOps := m.markOps + 1
            newLasers := m.newLasers.set m.newLaserIndex (some ⟨next, o⟩)
            newLaserIndex := m.newLaserIndex + 1 }

/-- Process one active laser (the body of the
`for laser in self.active_lasers.iter_mut().flatten()` loop in
`Checker::check`).  The Rust code mutates `self.laser_visited` and
`new_laser_index` in sequence; the embedding writes each final record
in one step (the panic test `new_laser_index > 3` does not depend on
the marking, so the order is immaterial). -/
def procOne (m : Mid) (a : ActiveLaser) : Except Mid Mid :=
  match a.nextPosition with
  | none => .ok { m with flag := false }
  | some next =>
    match m.cells next with
    | some token =>
      match token.orientation with
      | none =>
        .ok { m with
          newLaserIndex := m.newLaserIndex + 1
          unoriented := m.unoriented ++ [next] }
      | some p =>
        match procResult
            { m with cells := (setCell m.cells next
                (some (token.referenceOutboundLasers
                  (p.reorientInboundLaser a.orientation)).1)) }
            next
            (reorientResult p (token.referenceOutboundLasers
              (p.reorientInboundLaser a.orientation)).2.1) with
        | .error me => .error me
        | .ok m1 =>
          procResult m1 next
            (reorientResult p (token.referenceOutboundLasers
              (p.reorientInboundLaser a.orientation)).2.2)
    | none =>
      if 3 < m.newLaserIndex then
        .error { m with visited := mark m.visited next a.orientation,
                        markOps := m.markOps + 1 }
      else
        .ok { m with
          visited := mark m.visited next a.orientation
          markOps := m.markOps + 1
          newLasers := m.newLasers.set m.newLaserIndex
            (some ⟨next, a.orientation⟩)
          newLaserIndex := m.newLaserIndex + 1 }

/-- Fold `procOne` over the flattened list of active lasers,
short-circuiting on panic. -/
def foldLasers : Mid → List ActiveLaser → Except Mid Mid
  | m, [] => .ok m
  | m, a :: rest =>
    match procOne m a with
    | .error m' => .error m'
    | .ok m' => foldLasers m' rest

/-- Rebuild the `Checker` from the loop locals at the end of one outer
iteration (`self.active_lasers = new_lasers` plus the mutated fields). -/
def Checker.assemble (c : Checker) (m : Mid) : Checker :=
  { grid := { c.grid with cells := m.cells }
    activeLasers := m.newLasers
    laserVisited := m.visited
    unorientedOccupiedCells := m.unoriented
    allLasersRemainOnBoard := m.flag
    markOps := m.markOps }

/-- `Checker::has_active_lasers`. -/
def Checker.hasActiveLasers (c : Checker) : Bool :=
  c.activeLasers.any (fun l => l.isSome)

/-- One outer iteration of the `while self.has_active_lasers()` loop of
`Checker::check`.  The `Bool` is `true` when the iteration panicked
(`laser index > 3`); the returned state is the state at that moment. -/
def Checker.step (c : Checker) : Checker × Bool :=
  let m0 : Mid :=
    { cells := c.grid.cells
      visited := c.laserVisited
      newLasers := [none, none, none, none]
      newLaserIndex := 0
      unoriented := c.unorientedOccupiedCells
      flag := c.allLasersRemainOnBoard
      markOps := c.markOps }
  match foldLasers m0 (c.activeLasers.filterMap id) with
  | .error m => (c.assemble m, true)
  | .ok m => (c.assemble m, false)

/-- The `while self.has_active_lasers()` loop of `Checker::check`,
with explicit fuel.  `none` means the fuel ran out; `some (s, b)` means
the loop finished in state `s`, with `b = true` when it exited through
the `laser index > 3` panic. -/
def runCheck : Nat → Checker → Option (Checker × Bool)
  | fuel, c =>
    if c.hasActiveLasers then
      match fuel with
      | 0 => none
      | fuel + 1 =>
        match c.step with
        | (c', true) => some (c', true)
        | (c', false) => runCheck fuel c'
    else some (c, false)

/-- `Checker::from_solver_node` followed by `Checker::initialize`: find
the first Laser piece, mark its (cell, direction) and seed the single
active laser.  `none` models the `expect` panic when the Laser piece has
no orientation; when no Laser piece is on the grid `initialize` does
nothing. -/
def initChecker (n : SolverNode) : Option Checker :=
  let base : Checker :=
    { grid := n
      activeLasers := [none, none, none, none]
      laserVisited := fun _ _ => false
      unorientedOccupiedCells := []
      allLasersRemainOnBoard := true
      markOps := 0 }
  match (List.range 25).find? (fun i =>
      match n.cells i with
      | some t => t.type_ = TokenType.laser
      | none => false) with
  | none => some base
  | some i =>
    match n.cells i with
    | some t =>
      match t.orientation with
      | none => none
      | some p =>
        some { base with
          laserVisited := mark base.laserVisited i p
          activeLasers := [some ⟨i, p⟩, none, none, none]
          markOps := 1 }
    | none => some base

/-- `Checker::remaining_tokens_to_be_added`. -/
def Checker.remainingTokensToBeAdded (c : Checker) : Bool :=
  !c.grid.tokensToBeAdded.isEmpty || !c.grid.tokensToBeAddedShuffled.isEmpty

/-- `Checker::count_lit_targets`. -/
def Checker.countLitTargets (c : Checker) : Nat :=
  (List.range 25).countP (fun i =>
    match c.grid.cells i with
    | some t => t.targetLit.getD false
    | none => false)

/-- `Checker::all_required_targets_lit`.  The Rust code `expect`s
`target_lit` to be `Some` on every `must_light` token (and panics
otherwise); the embedding reads `getD false` there, which agrees with
the code whenever that precondition holds. -/
def Checker.allRequiredTargetsLit (c : Checker) : Bool :=
  (List.range 25).all (fun i =>
    match c.grid.cells i with
    | some t => if t.mustLight then t.targetLit.getD false else true
    | none => true)

/-- `Checker::all_tokens_lit`: every token on the grid is lit. -/
def Checker.allTokensLit (c : Checker) : Bool :=
  (List.range 25).all (fun i =>
    match c.grid.cells i with
    | some t => t.lit
    | none => true)

/-- `Checker::solved`. -/
def Checker.solved (c : Checker) : Bool :=
  decide (c.grid.targets = c.countLitTargets)
    && c.allRequiredTargetsLit
    && c.allTokensLit
    && c.allLasersRemainOnBoard
    && !c.remainingTokensToBeAdded

/-- `Checker::from_solver_node`. -/
def Checker.fromSolverNode (n : SolverNode) : Checker :=
  { grid := n
    activeLasers := [none, none, none, none]
    laserVisited := fun _ _ => false
    unorientedOccupiedCells := []
    allLasersRemainOnBoard := true
    markOps := 0 }

/-- `Checker::initialize`: find the first Laser piece, mark its
(cell, direction) and seed the single active laser.  `none` models the
`expect` panic when the Laser piece has no orientation; when no Laser
piece is on the grid, `initialize` does nothing. -/
def Checker.initialize2 (c : Checker) : Option Checker :=
  match (List.range 25).find? (fun i =>
      match c.grid.cells i with
      | some t => t.type_ = TokenType.laser
      | none => false) with
  | none => some c
  | some i =>
    match c.grid.cells i with
    | some t =>
      match t.orientation with
      | none => none
      | some p =>
        some { c with
          laserVisited := mark c.laserVisited i p
          activeLasers := [some ⟨i, p⟩, none, none, none]
          markOps := c.markOps + 1 }
    | none => some c

/-- `Checker::check` = `initialize` followed by the simulation loop.
Fuel 101 is enough for any run (see the termination theorem below);
`none` models the `expect` panic on an unoriented Laser or (never
reached) fuel exhaustion. -/
def Checker.check (c : Checker) : Option (Checker × Bool) :=
  c.initialize2.bind (runCheck 101)

/-- `initChecker` = `Checker::from_solver_node` + `Checker::initialize`. -/
theorem initChecker_eq (n : SolverNode) :
    initChecker n = (Checker.fromSolverNode n).initialize2 := rfl

/-- Modelled from the spec: `SolverNode::reset_tokens` lives in
`src/solver/solver_node.rs`, which is not under `src/`; §4.4 of the spec
says callers "must call `reset()` on every token" of the board to clear
the simulation state, so the model resets every grid token. -/
def SolverNode.resetTokens (n : SolverNode) : SolverNode :=
  { n with cells := fun i => (n.cells i).map Token.reset }

/-- `SPIRAL_ORDER` from `src/solver_node.rs`. -/
def spiralOrder : List Nat :=
  [0, 1, 2, 3, 4, 9, 14, 19, 24, 23, 22, 21, 20, 15, 10, 5, 6, 7, 8, 13,
   18, 17, 16, 11, 12]

/-- Modelled from the spec: `SPIRAL_ORDER_REVERSE` lives in
`src/solver/solver_node.rs`, which is not under `src/`; by its name and
the spiral-order placement heuristic of §4.3 it is the reverse of
`SPIRAL_ORDER`.  Only membership (never the order) matters to the claims
below. -/
def spiralOrderReverse : List Nat := spiralOrder.reverse

/-- `NORTH_EDGE_CELL_INDICES` from `src/solver_node.rs`. -/
def northEdgeCellIndices : List Nat := [21, 22, 23]

/-- `EAST_EDGE_CELL_INDICES` from `src/solver_node.rs`. -/
def eastEdgeCellIndices : List Nat := [9, 14, 19]

/-- `SOUTH_EDGE_CELL_INDICES` from `src/solver_node.rs`. -/
def southEdgeCellIndices : List Nat := [1, 2, 3]

/-- `WEST_EDGE_CELL_INDICES` from `src/solver_node.rs`. -/
def westEdgeCellIndices : List Nat := [5, 10, 15]

/-- The first cell holding a CellBlocker (the `find` at the start of
`SolverNode::forbidden_orientations`). -/
def firstCellBlockerIndex (cells : Cells) : Option Nat :=
  (List.range 25).find? (fun i =>
    match cells i with
    | some t => t.type_ = TokenType.cellBlocker
    | none => false)

/-- The `neighboring_cell_indices` table of
`SolverNode::forbidden_orientations`. -/
def blockerNeighbors : Nat → List (Option Nat)
  | 0 => [some 1, some 5]
  | 4 => [some 3, some 9]
  | 20 => [some 15, some 21]
  | 24 => [some 23, some 19]
  | 1 => [some 6, none]
  | 2 => [some 7, none]
  | 3 => [some 8, none]
  | 9 => [some 8, none]
  | 14 => [some 13, none]
  | 19 => [some 18, none]
  | 23 => [some 18, none]
  | 22 => [some 17, none]
  | 21 => [some 16, none]
  | 15 => [some 16, none]
  | 10 => [some 11, none]
  | 5 => [some 6, none]
  | _ => [none, none]

/-- The edge/corner fallback of `SolverNode::forbidden_orientations`
(reached when no CellBlocker special case applies). -/
def forbiddenGeometric (cellIndex : Nat) : List (Option Orientation) :=
  if cellIndex = 0 then [some .south, some .west]
  else if cellIndex = 4 then [some .south, some .east]
  else if cellIndex = 20 then [some .north, some .west]
  else if cellIndex = 24 then [some .north, some .east]
  else if northEdgeCellIndices.contains cellIndex then [some .north, none]
  else if eastEdgeCellIndices.contains cellIndex then [some .east, none]
  else if southEdgeCellIndices.contains cellIndex then [some .south, none]
  else if westEdgeCellIndices.contains cellIndex then [some .west, none]
  else [none, none]

/-- Body of `SolverNode::forbidden_orientations` as a function of the
first CellBlocker position.  The final wildcard arm of the corner match
is the `panic!("Logical error in is_edge_cell()")` arm, which is dead
code (the corner-neighbor table only produces the listed indices). -/
def forbiddenAux (blocker : Option Nat) (cellIndex : Nat) :
    List (Option Orientation) :=
  if cellIndex = 12 then [none, none]
  else
    match blocker with
    | some b =>
      if ((blockerNeighbors b).filterMap id).contains cellIndex then
        if northEdgeCellIndices.contains b then [some .north, none]
        else if eastEdgeCellIndices.contains b then [some .east, none]
        else if southEdgeCellIndices.contains b then [some .south, none]
        else if westEdgeCellIndices.contains b then [some .west, none]
        else
          match cellIndex with
          | 1 => [some .south, some .west]
          | 3 => [some .south, some .east]
          | 9 => [some .south, some .east]
          | 19 => [some .north, some .east]
          | 23 => [some .north, some .east]
          | 21 => [some .north, some .west]
          | 15 => [some .north, some .west]
          | 5 => [some .south, some .west]
          | _ => [none, none]
      else forbiddenGeometric cellIndex
    | none => forbiddenGeometric cellIndex

/-- `SolverNode::forbidden_orientations` from `src/solver_node.rs`:
the off-board-facing directions for a cell, adjusted for a CellBlocker
on a neighboring edge/corner cell.  Only `self.cells` is read, so the
embedding takes the cells directly. -/
def forbiddenOrientations (cells : Cells) (cellIndex : Nat) :
    List (Option Orientation) :=
  forbiddenAux (firstCellBlockerIndex cells) cellIndex

/-- `SolverNode::target_mirror_orientation_iter` from
`src/solver_node.rs`.  `none` models the two
`panic!("Tried checking target mirror rotations ...")` paths.  The large
commented-out accessibility restriction in the source (noted there as
breaking puzzle 40) is not part of the behavior. -/
def targetMirrorOrientationIter (cells : Cells) (forbidden : List Nat)
    (cellIndex : Nat) : Option (List Nat) :=
  let result := [0, 1, 2, 3]
  match cells cellIndex with
  | some t =>
    if t.type_ ≠ TokenType.targetMirror then none
    else if t.mustLight then
      some (result.filter (fun o => !forbidden.contains o))
    else some result
  | none => none

/-- `SolverNode::orientation_iter` from `src/solver_node.rs`: the valid
orientation indices for a piece of the given type at the given cell.
Only `self.cells` is read, so the embedding takes the cells directly. -/
def orientationIter (cells : Cells) (tokenType : TokenType)
    (cellIndex : Nat) : Option (List Nat) :=
  let result := tokenType.orientationRange
  if [TokenType.beamSplitter, TokenType.doubleMirror,
      TokenType.cellBlocker].contains tokenType then
    some result
  else
    let forbiddenDirections :=
      ((forbiddenOrientations cells cellIndex).filterMap id).map
        Orientation.toIndex
    match tokenType with
    | .laser =>
      some (result.filter (fun o => !forbiddenDirections.contains o))
    | .checkpoint =>
      let fd := forbiddenDirections.map (fun idx => if 1 < idx then idx - 2 else idx)
      some (result.filter (fun o => !fd.contains o))
    | .targetMirror =>
      targetMirrorOrientationIter cells forbiddenDirections cellIndex
    | _ => some result

/-- Modelled from the spec: `SolverNode::generate_orientation_branches_at_cell`
lives in `src/solver/solver_node.rs`, which is not under `src/`; §4.3
step 2 of the spec says orientation branching generates "one child per
valid orientation index for that piece", so the model produces one clone
per index of `orientation_iter` with the token's orientation set. -/
def generateOrientationBranchesAtCell (n : SolverNode) (cellIndex : Nat) :
    List SolverNode :=
  match n.cells cellIndex with
  | none => []
  | some t =>
    match orientationIter n.cells t.type_ cellIndex with
    | none => []
    | some idxs =>
      idxs.map (fun x =>
        let t' : Token := { t with orientation := some (Orientation.fromIndex x) }
        { n with cells := setCell n.cells cellIndex (some t') })

/-- `Checker::empty_cells_with_active_laser`. -/
def Checker.emptyCellsWithActiveLaser (c : Checker) : List Nat :=
  (List.range 25).filter (fun i =>
    (c.grid.cells i).isNone
      && (c.laserVisited i .north || c.laserVisited i .east
          || c.laserVisited i .south || c.laserVisited i .west))

/-- `Checker::generate_branches_after_check` from `src/solver/checker.rs`:
orientation branches for the cells where the beam paused on an
unoriented token, else placement branches for the next shuffled token on
the beam footprint, else a dead leaf. -/
def Checker.generateBranchesAfterCheck (c : Checker) : List SolverNode :=
  if !c.unorientedOccupiedCells.isEmpty then
    c.unorientedOccupiedCells.flatMap
      (fun i => generateOrientationBranchesAtCell c.grid i)
  else
    match c.grid.tokensToBeAddedShuffled.getLast? with
    | some token =>
      let grid' := { c.grid with
        tokensToBeAddedShuffled := c.grid.tokensToBeAddedShuffled.dropLast }
      let emptyCells := c.emptyCellsWithActiveLaser
      (spiralOrderReverse.filter (fun i => emptyCells.contains i)).map
        (fun i => { grid' with cells := setCell grid'.cells i (some token) })
    | none => []

/-- `Checker::generate_branches` from `src/solver/checker.rs`: run the
simulation, reset every token, and either return the solved cells or the
children.  `none` models the panics inside `check` (unoriented Laser,
`laser index > 3`). -/
def Checker.generateBranches (c : Checker) :
    Option (Sum Cells (List SolverNode)) :=
  match c.check with
  | none => none
  | some (_, true) => none
  | some (s, false) =>
    if s.solved then
      some (Sum.inl (s.grid.resetTokens).cells)
    else
      let s' := { s with grid := s.grid.resetTokens }
      some (Sum.inr s'.generateBranchesAfterCheck)

/-- `TOKEN_TYPES` from `src/solver/token.rs`. -/
def tokenTypes : List TokenType :=
  [.laser, .targetMirror, .beamSplitter, .doubleMirror, .checkpoint,
   .cellBlocker]

/-- The Rust `Debug` name of a `TokenType` (used in the validation
message `format!("Invalid piece count for piece type {:?}!", ..)`). -/
def TokenType.rustName : TokenType → String
  | .laser => "Laser"
  | .targetMirror => "TargetMirror"
  | .beamSplitter => "BeamSplitter"
  | .doubleMirror => "DoubleMirror"
  | .checkpoint => "Checkpoint"
  | .cellBlocker => "CellBlocker"

/-- The fixed cardinality range of each `TokenType` in
`LaserMazeSolver::validate`. -/
def tokenCountRange : TokenType → Nat × Nat
  | .laser => (1, 1)
  | .targetMirror => (1, 5)
  | .beamSplitter => (0, 2)
  | .doubleMirror => (0, 1)
  | .checkpoint => (0, 1)
  | .cellBlocker => (0, 1)

/-- The puzzle input held by `LaserMazeSolver` (`initial_grid_config`,
`tokens_to_be_added`, `targets`). -/
structure LaserMazeSolver where
  initialGridConfig : Cells
  tokensToBeAdded : List Token
  targets : Nat

/-- The number of tokens of one type on the initial grid. -/
def LaserMazeSolver.gridCount (p : LaserMazeSolver) (ty : TokenType) : Nat :=
  (List.range 25).countP (fun i =>
    match p.initialGridConfig i with
    | some t => t.type_ = ty
    | none => false)

/-- The total on-board + bag count of one type, as accumulated by the
`u8` counters of `LaserMazeSolver::validate` (hence reduced mod 2^8). -/
def LaserMazeSolver.tokenCount (p : LaserMazeSolver) (ty : TokenType) : Nat :=
  (p.gridCount ty + p.tokensToBeAdded.countP (fun t => t.type_ = ty)) % 256

/-- The `must_light_count` of `LaserMazeSolver::validate`: must-light
tokens on the initial grid only (a `u8` sum of at most 25 ones, so no
reduction is needed). -/
def LaserMazeSolver.mustLightCount (p : LaserMazeSolver) : Nat :=
  (List.range 25).countP (fun i =>
    match p.initialGridConfig i with
    | some t => t.mustLight
    | none => false)

/-- `LaserMazeSolver::validate` from `src/solver.rs`.  The Rust code
iterates the count table in `HashMap` order, which only affects *which*
out-of-range type is named in the message when several violate at once;
the embedding fixes the `TOKEN_TYPES` declaration order. -/
def LaserMazeSolver.validate (p : LaserMazeSolver) : Except String Unit :=
  if p.targets = 0 ∨ 3 < p.targets then
    .error "Invalid number of targets!"
  else
    match tokenTypes.find? (fun ty =>
        let r := tokenCountRange ty
        decide (p.tokenCount ty < r.1) || decide (r.2 < p.tokenCount ty)) with
    | some ty =>
      .error ("Invalid piece count for piece type " ++ ty.rustName ++ "!")
    | none =>
      if p.targets < p.mustLightCount then
        .error "Invalid number of pieces which must be lit!"
      else if p.tokensToBeAdded.any
          (fun t => t.type_ = TokenType.cellBlocker) then
        .error "Cell Blocker included in tokens_to_be_added!"
      else .ok ()

/-- `SolverNode::new`: the root search node of a puzzle. -/
def SolverNode.ofPuzzle (p : LaserMazeSolver) : SolverNode :=
  { cells := p.initialGridConfig
    tokensToBeAdded := p.tokensToBeAdded
    tokensToBeAddedShuffled := []
    targets := p.targets }

/-- The `while let Some(node) = self.stack.pop()` loop of
`LaserMazeSolver::solve`, with explicit fuel, parameterized by the
branch generator `g` (`SolverNode::generate_branches` lives in
`src/solver/solver_node.rs`, which is not under `src/`, so the loop is
stated for an arbitrary generator).  The list head is the top of the
stack; `Vec::extend` + LIFO `pop` is `ns.reverse ++ rest`. -/
def solveLoop (g : SolverNode → Sum Cells (List SolverNode)) :
    Nat → List SolverNode → Option (Option Cells)
  | _, [] => some none
  | 0, _ :: _ => none
  | fuel + 1, node :: rest =>
    match g node with
    | .inl cells => some (some cells)
    | .inr ns => solveLoop g fuel (ns.reverse ++ rest)

/-- `LaserMazeSolver::solve` from `src/solver.rs`: validate, then drive
the depth-first loop.  `none` means the loop fuel ran out. -/
def LaserMazeSolver.solve (p : LaserMazeSolver)
    (g : SolverNode → Sum Cells (List SolverNode)) (fuel : Nat) :
    Option (Except String (Option Cells)) :=
  match p.validate with
  | .error m => some (.error m)
  | .ok _ => (solveLoop g fuel [SolverNode.ofPuzzle p]).map Except.ok

/-- `SolverNode` as declared in `src/solver_node.rs` (the earlier
iteration of the solver, which hosts `forbidden_orientations`,
`orientation_iter` and the shuffling generator): the four core fields
plus the embedded simulation state. -/
structure SolverNodeV1 where
  cells : Cells
  tokensToBeAdded : List Token
  tokensToBeAddedShuffled : List Token
  laserVisited : Nat → Orientation → Bool
  activeLasers : List (Option ActiveLaser)
  targets : Nat

/-- `SolverNode::count_tokens_to_be_added_by_type` from
`src/solver_node.rs`. -/
def SolverNodeV1.countTokensToBeAddedByType (n : SolverNodeV1)
    (ty : TokenType) : Nat :=
  n.tokensToBeAdded.countP (fun t => t.type_ = ty)

/-- `SolverNode::count_must_light_tokens_to_be_added` from
`src/solver_node.rs`. -/
def SolverNodeV1.countMustLightTokensToBeAdded (n : SolverNodeV1) : Nat :=
  n.tokensToBeAdded.countP (fun t => t.mustLight)

/-- The five bag categories of the shuffling generator, in the branch
order of `backtrack`. -/
def categoryTokens : List Token :=
  [Token.new .targetMirror none true,
   Token.new .targetMirror none false,
   Token.new .checkpoint none false,
   Token.new .doubleMirror none false,
   Token.new .beamSplitter none false]

/-- The recursive `backtrack` helper of
`SolverNode::generate_shuffled_tokens_to_be_added_branches`: build every
distinct ordering of a bag with `a` must-light TargetMirrors, `b` free
TargetMirrors, `c` Checkpoints, `d` DoubleMirrors and `e` BeamSplitters,
appended to the prefix `cur`, in the order the Rust recursion pushes
them. -/
def backtrack (a b c d e : Nat) (cur : List Token) : List (List Token) :=
  if a = 0 ∧ b = 0 ∧ c = 0 ∧ d = 0 ∧ e = 0 then [cur]
  else
    (if a > 0 then
      backtrack (a - 1) b c d e (cur ++ [Token.new .targetMirror none true])
    else []) ++
    (if b > 0 then
      backtrack a (b - 1) c d e (cur ++ [Token.new .targetMirror none false])
    else []) ++
    (if c > 0 then
      backtrack a b (c - 1) d e (cur ++ [Token.new .checkpoint none false])
    else []) ++
    (if d > 0 then
      backtrack a b c (d - 1) e (cur ++ [Token.new .doubleMirror none false])
    else []) ++
    (if e > 0 then
      backtrack a b c d (e - 1) (cur ++ [Token.new .beamSplitter none false])
    else [])
termination_by a + b + c + d + e
decreasing_by all_goals omega

/-- `SolverNode::generate_shuffled_tokens_to_be_added_branches` from
`src/solver_node.rs`: one child per distinct ordering of the bag's
category multiset, the bag emptied and the ordering stored in
`tokens_to_be_added_shuffled`.  The `usize` subtraction computing
the free-TargetMirror count is embedded as `Nat` subtraction; they agree
whenever every must-light bag token is a TargetMirror. -/
def SolverNodeV1.generateShuffledTokensToBeAddedBranches
    (n : SolverNodeV1) : List SolverNodeV1 :=
  let a := n.countMustLightTokensToBeAdded
  let b := n.countTokensToBeAddedByType .targetMirror - a
  let c := n.countTokensToBeAddedByType .checkpoint
  let d := n.countTokensToBeAddedByType .doubleMirror
  let e := n.countTokensToBeAddedByType .beamSplitter
  (backtrack a b c d e []).map (fun ordering =>
    { n with tokensToBeAdded := [], tokensToBeAddedShuffled := ordering })

/-! ## Claim-side definitions

The following definitions restate, in the words of the specification's
claims, the behavior that the source-translated definitions above are to
be compared with. -/

/-- The reference-frame interaction table exactly as claim C3 describes
it: the outbound local directions, and whether a beam-less interaction
is an *invalid* termination. -/
structure ClaimInteraction where
  outs : List Orientation
  invalidTermination : Bool
deriving DecidableEq, Repr

/-- Claim C3's reference table: Laser accepts only local South
(valid termination), otherwise invalid; Checkpoint passes North/South
and rejects East/West; TargetMirror deflects North to West, East to
South, rejects West, absorbs South; DoubleMirror swaps North/West and
South/East; CellBlocker passes everything; BeamSplitter adds the
transmitted beam to the DoubleMirror reflection. -/
def claimReferenceTable : TokenType → Orientation → ClaimInteraction
  | .laser, .south => ⟨[], false⟩
  | .laser, _ => ⟨[], true⟩
  | .checkpoint, .north => ⟨[.north], false⟩
  | .checkpoint, .south => ⟨[.south], false⟩
  | .checkpoint, _ => ⟨[], true⟩
  | .targetMirror, .north => ⟨[.west], false⟩
  | .targetMirror, .east => ⟨[.south], false⟩
  | .targetMirror, .west => ⟨[], true⟩
  | .targetMirror, .south => ⟨[], false⟩
  | .doubleMirror, .north => ⟨[.west], false⟩
  | .doubleMirror, .west => ⟨[.north], false⟩
  | .doubleMirror, .south => ⟨[.east], false⟩
  | .doubleMirror, .east => ⟨[.south], false⟩
  | .cellBlocker, d => ⟨[d], false⟩
  | .beamSplitter, .north => ⟨[.west, .north], false⟩
  | .beamSplitter, .west => ⟨[.north, .west], false⟩
  | .beamSplitter, .south => ⟨[.east, .south], false⟩
  | .beamSplitter, .east => ⟨[.south, .east], false⟩

/-- The outbound directions among two interaction results, in order. -/
def outboundDirs (r1 r2 : LaserTokenInteractionResult) : List Orientation :=
  [r1, r2].filterMap (fun r =>
    match r with
    | .outboundLaser o => some o
    | .noOutboundLaser _ => none)

/-- Whether either interaction result is an invalid termination. -/
def hasInvalidTermination (r1 r2 : LaserTokenInteractionResult) : Bool :=
  [r1, r2].any (fun r => r = LaserTokenInteractionResult.noOutboundLaser false)

/-- The world-frame outbound directions and invalid-termination flag of
`Token::outbound_lasers_given_inbound_laser_direction`. -/
def interactionSummary (t : Token) (d : Orientation) :
    Option (List Orientation × Bool) :=
  (t.outboundLasers d).map (fun r =>
    (outboundDirs r.2.1 r.2.2, hasInvalidTermination r.2.1 r.2.2))

/-- The updated token of
`Token::outbound_lasers_given_inbound_laser_direction`. -/
def interactionToken (t : Token) (d : Orientation) : Option Token :=
  (t.outboundLasers d).map (fun r => r.1)

/-- The off-board-facing directions of a cell, read off the 5×5 geometry
(row `i / 5`, column `i % 5`; row 0 is the South edge, column 0 the West
edge): claim C7's purely geometric description. -/
def offBoardDirections (i : Nat) : List Orientation :=
  (if i / 5 = 4 then [Orientation.north] else []) ++
  (if i % 5 = 4 then [Orientation.east] else []) ++
  (if i / 5 = 0 then [Orientation.south] else []) ++
  (if i % 5 = 0 then [Orientation.west] else [])

/-- Whether a cell index is one of the four corners. -/
def isCornerCell (i : Nat) : Bool :=
  (i / 5 = 0 ∨ i / 5 = 4) ∧ (i % 5 = 0 ∨ i % 5 = 4)

/-- Whether a cell index is on the board edge. -/
def isEdgeCell (i : Nat) : Bool :=
  i / 5 = 0 ∨ i / 5 = 4 ∨ i % 5 = 0 ∨ i % 5 = 4

/-- The inward neighbors a CellBlocker restricts, per claim C7: for a
blocker on a corner, the two edge cells adjacent to that corner; for a
blocker on a non-corner edge, its single inward neighbor; otherwise
none. -/
def claimInwardNeighbors (b : Nat) : List Nat :=
  if isCornerCell b then
    [b + (if b % 5 = 0 then 1 else 0) - (if b % 5 = 4 then 1 else 0),
     b + (if b / 5 = 0 then 5 else 0) - (if b / 5 = 4 then 5 else 0)]
  else if isEdgeCell b then
    [b + (if b / 5 = 0 then 5 else 0) - (if b / 5 = 4 then 5 else 0)
       + (if b % 5 = 0 then 1 else 0) - (if b % 5 = 4 then 1 else 0)]
  else []

/-- Claim C7's description of `forbidden_orientations` as a function of
the CellBlocker position: cell 12 is never restricted; a cell the
blocker restricts receives the blocker's own off-board directions
(one for a non-corner edge blocker, two for a corner blocker);
otherwise the cell's own off-board directions. -/
def claimForbidden (blocker : Option Nat) (i : Nat) : List Orientation :=
  if i = 12 then []
  else
    match blocker with
    | some b =>
      if (claimInwardNeighbors b).contains i then offBoardDirections b
      else offBoardDirections i
    | none => offBoardDirections i

/-- The number of must-light target mirrors on the board *and* in the
bag together, as claim C5 counts them. -/
def LaserMazeSolver.mustLightTotal (p : LaserMazeSolver) : Nat :=
  p.mustLightCount + p.tokensToBeAdded.countP (fun t => t.mustLight)

/-- The true (unwrapped) on-board + bag count of one token type, as
claim C4 counts it. -/
def LaserMazeSolver.trueTokenCount (p : LaserMazeSolver) (ty : TokenType) : Nat :=
  p.gridCount ty + p.tokensToBeAdded.countP (fun t => t.type_ = ty)

/-- Claim C4's invalidity conditions, amended with the must-light check
that `LaserMazeSolver::validate` also performs: target count outside
1..3, some type's total count outside its fixed range, more on-board
must-light tokens than targets, or a CellBlocker in the bag. -/
def invalidPuzzle (p : LaserMazeSolver) : Prop :=
  (p.targets = 0 ∨ 3 < p.targets)
  ∨ (∃ ty : TokenType, p.trueTokenCount ty < (tokenCountRange ty).1
      ∨ (tokenCountRange ty).2 < p.trueTokenCount ty)
  ∨ p.targets < p.mustLightCount
  ∨ (∃ t ∈ p.tokensToBeAdded, t.type_ = TokenType.cellBlocker)

instance (p : LaserMazeSolver) : Decidable (invalidPuzzle p) := by
  unfold invalidPuzzle
  exact inferInstance

/-- A cell the beam touched during a simulation run: either the beam
traversed it (some direction is marked in `laser_visited`) or the
interaction mutated its token's state relative to the starting node.
This is the inclusive reading of "touched" in claim C1: it covers both
pieces the beam passed through and pieces that absorbed it. -/
def touchedCell (c : Checker) (n : SolverNode) (i : Nat) : Bool :=
  c.laserVisited i .north || c.laserVisited i .east
    || c.laserVisited i .south || c.laserVisited i .west
    || decide (c.grid.cells i ≠ n.cells i)

/-! ## Theorems -/

/-- **C6** (confirmed).  For every piece orientation `P` and world
direction `D`, `reorient_outbound_laser(P, reorient_inbound_laser(P, D))
= D` on all 16 pairs, and the `usize` wrapping subtraction feeding the
inbound reorientation agrees with ordinary subtraction mod 4 (so it is
well-defined even when the laser ordinal is smaller than the piece
ordinal). -/
theorem reorient_composition_roundtrip :
    ∀ p d : Orientation,
      p.reorientOutboundLaser (p.reorientInboundLaser d) = d
      ∧ wrappingSub d.toIndex p.toIndex % 4 = (4 + d.toIndex - p.toIndex) % 4 := by
  decide

/-- **C3** (confirmed).  For every oriented token and world inbound
direction, `outbound_lasers_given_inbound_laser_direction` equals the
reference interaction table of claim C3 conjugated by the piece's
orientation: the outbound world directions are the reference outputs
reoriented by the piece orientation, the invalid-termination flag
matches the table, a Checkpoint hit on its local North/South marks
itself lit, and a TargetMirror hit on its local South sets
`target_lit = Some(true)`. -/
theorem outbound_lasers_conjugate_reference :
    ∀ (ty : TokenType) (p d : Orientation) (lit0 ml : Bool) (tl0 : Option Bool),
      interactionSummary ⟨ty, some p, lit0, tl0, ml⟩ d =
        some (((claimReferenceTable ty (p.reorientInboundLaser d)).outs).map
            p.reorientOutboundLaser,
          (claimReferenceTable ty (p.reorientInboundLaser d)).invalidTermination)
      ∧ (ty = TokenType.checkpoint →
          (p.reorientInboundLaser d = Orientation.north
            ∨ p.reorientInboundLaser d = Orientation.south) →
          (interactionToken ⟨ty, some p, lit0, tl0, ml⟩ d).map Token.lit =
            some true)
      ∧ (ty = TokenType.targetMirror →
          p.reorientInboundLaser d = Orientation.south →
          (interactionToken ⟨ty, some p, lit0, tl0, ml⟩ d).map Token.targetLit =
            some (some true)) := by
  decide

/-- Witness for C3: a Checkpoint facing East hit by a beam travelling
East (local North) passes it through and marks itself lit; a
TargetMirror facing North hit by a beam travelling South (local South)
sets `target_lit`. -/
theorem outbound_lasers_conjugate_reference_witness :
    (interactionToken ⟨TokenType.checkpoint, some Orientation.east, false,
        none, false⟩ Orientation.east).map Token.lit = some true
    ∧ (interactionToken ⟨TokenType.targetMirror, some Orientation.north, false,
        some false, false⟩ Orientation.south).map Token.targetLit =
      some (some true) :=
  ⟨(outbound_lasers_conjugate_reference .checkpoint .east .east false false
      none).2.1 rfl (Or.inl (by decide)),
   (outbound_lasers_conjugate_reference .targetMirror .north .south false false
      (some false)).2.2 rfl (by decide)⟩

/-- The cell index returned by `firstCellBlockerIndex` is a board index. -/
theorem firstCellBlockerIndex_lt (cells : Cells) (b : Nat)
    (h : firstCellBlockerIndex cells = some b) : b < 25 := by
  have hm := List.mem_of_find?_eq_some h
  exact List.mem_range.mp hm

/-- **C7** (confirmed).  For every board and cell index,
`forbidden_orientations` returns exactly the set of directions described
by claim C7: with the first CellBlocker position as the only dynamic
input, cell 12 is never restricted, corners get their two off-board
directions, non-corner edge cells their single off-board direction,
interior cells none; and a cell next to the blocker inherits the
blocker's own off-board directions (one for a non-corner edge blocker,
two for each edge cell adjacent to a corner blocker). -/
theorem forbidden_orientations_match_claim :
    ∀ (cells : Cells) (i : Fin 25),
      ((forbiddenOrientations cells i.val).filterMap id).Perm
        (claimForbidden (firstCellBlockerIndex cells) i.val) := by
  have key : ∀ (b : Option (Fin 25)) (j : Fin 25),
      ((forbiddenAux (b.map Fin.val) j.val).filterMap id).Perm
        (claimForbidden (b.map Fin.val) j.val) := by decide
  intro cells i
  unfold forbiddenOrientations
  cases hb : firstCellBlockerIndex cells with
  | none => exact key none i
  | some b => exact key (some ⟨b, firstCellBlockerIndex_lt cells b hb⟩) i

/-- A board with a single not-must-light, unoriented TargetMirror on
corner cell 0. -/
def freeTargetCornerCells : Cells := fun i =>
  if i = 0 then some (Token.new TokenType.targetMirror none false) else none

/-- **C8 counterexample.**  On corner cell 0 the forbidden (off-board)
directions are South and West (indices 2 and 3), so claim C8 predicts
orientation branches `[0, 1]` for a not-must-light TargetMirror there;
`orientation_iter` actually returns all four orientations, with no
board-exit pruning at all. -/
theorem target_mirror_free_orientations_counterexample :
    orientationIter freeTargetCornerCells TokenType.targetMirror 0 =
      some [0, 1, 2, 3]
    ∧ (((forbiddenOrientations freeTargetCornerCells 0).filterMap id).map
        Orientation.toIndex) = [2, 3]
    ∧ [0, 1, 2, 3].filter (fun o => !([2, 3].contains o)) = [0, 1]
    ∧ (some [0, 1, 2, 3] : Option (List Nat)) ≠ some [0, 1] := by
  refine ⟨by decide, by decide, by decide, by decide⟩

/-- **C8** (corrected).  For a TargetMirror on the board, the generated
orientation indices are: all four minus the cell's forbidden
(off-board-facing) directions when `must_light` is true, and all four
orientations *with no exclusion whatsoever* (not even the off-board
pruning) when `must_light` is false. -/
theorem target_mirror_orientation_branches (cells : Cells) (i : Nat)
    (t : Token) (hc : cells i = some t)
    (hty : t.type_ = TokenType.targetMirror) :
    orientationIter cells TokenType.targetMirror i =
      some (if t.mustLight then
          [0, 1, 2, 3].filter (fun o =>
            !((((forbiddenOrientations cells i).filterMap id).map
              Orientation.toIndex).contains o))
        else [0, 1, 2, 3]) := by
  have hbs : ([TokenType.beamSplitter, TokenType.doubleMirror,
      TokenType.cellBlocker].contains TokenType.targetMirror) = false := rfl
  unfold orientationIter
  rw [hbs]
  simp only [Bool.false_eq_true, if_false]
  unfold targetMirrorOrientationIter
  rw [hc]
  simp only [hty, ne_eq, not_true_eq_false, if_false]
  cases t.mustLight <;> simp

/-- A board with a single must-light, unoriented TargetMirror on corner
cell 0. -/
def mustTargetCornerCells : Cells := fun i =>
  if i = 0 then some (Token.new TokenType.targetMirror none true) else none

/-- Witness for C8: a must-light TargetMirror on corner cell 0 gets the
pruned orientation set. -/
theorem target_mirror_orientation_branches_witness :
    orientationIter mustTargetCornerCells TokenType.targetMirror 0 =
      some (if (Token.new TokenType.targetMirror none true).mustLight then
          [0, 1, 2, 3].filter (fun o =>
            !((((forbiddenOrientations mustTargetCornerCells 0).filterMap
              id).map Orientation.toIndex).contains o))
        else [0, 1, 2, 3]) :=
  target_mirror_orientation_branches mustTargetCornerCells 0 _ rfl rfl

/-- `Option.getD false` agreeing with `= some true` on `Option Bool`. -/
theorem getD_false_eq_true_iff (o : Option Bool) :
    o.getD false = true ↔ o = some true := by
  cases o <;> simp

/-- `Checker::all_required_targets_lit` elementwise. -/
theorem allRequiredTargetsLit_iff (c : Checker) :
    c.allRequiredTargetsLit = true ↔
      ∀ i, i < 25 → ∀ t, c.grid.cells i = some t → t.mustLight = true →
        t.targetLit = some true := by
  unfold Checker.allRequiredTargetsLit
  rw [List.all_eq_true]
  constructor
  · intro h i hi t ht hm
    have hx := h i (List.mem_range.mpr hi)
    rw [ht] at hx
    have hx' : (if t.mustLight = true then t.targetLit.getD false else true)
        = true := hx
    rw [hm, if_pos rfl] at hx'
    exact (getD_false_eq_true_iff t.targetLit).mp hx'
  · intro h i hi
    rw [List.mem_range] at hi
    cases ht : c.grid.cells i with
    | none => exact rfl
    | some t =>
      show (if t.mustLight = true then t.targetLit.getD false else true) = true
      cases hm : t.mustLight with
      | false => simp
      | true =>
        rw [if_pos rfl]
        exact (getD_false_eq_true_iff t.targetLit).mpr (h i hi t ht hm)

/-- `Checker::all_tokens_lit` elementwise. -/
theorem allTokensLit_iff (c : Checker) :
    c.allTokensLit = true ↔
      ∀ i, i < 25 → ∀ t, c.grid.cells i = some t → t.lit = true := by
  unfold Checker.allTokensLit
  rw [List.all_eq_true]
  constructor
  · intro h i hi t ht
    have hx := h i (List.mem_range.mpr hi)
    rw [ht] at hx
    exact hx
  · intro h i hi
    cases ht : c.grid.cells i with
    | none => simp
    | some t => exact h i (List.mem_range.mp hi) t ht

/-- **C1** (corrected).  `Checker::solved()` returns `true` iff the
number of lit targets equals the required target count, every must-light
target is target-lit, *every token on the grid* is lit (not only the
touched ones, see the counterexample), no beam went off-board or
terminated invalidly, and both the bag and the shuffled bag are empty. -/
theorem solved_iff (c : Checker) :
    c.solved = true ↔
      (c.grid.targets = c.countLitTargets
        ∧ (∀ i, i < 25 → ∀ t, c.grid.cells i = some t → t.mustLight = true →
            t.targetLit = some true)
        ∧ (∀ i, i < 25 → ∀ t, c.grid.cells i = some t → t.lit = true)
        ∧ c.allLasersRemainOnBoard = true
        ∧ c.grid.tokensToBeAdded = [] ∧ c.grid.tokensToBeAddedShuffled = []) := by
  unfold Checker.solved
  simp only [Bool.and_eq_true, decide_eq_true_eq, Bool.not_eq_true',
    Checker.remainingTokensToBeAdded, Bool.or_eq_false_iff,
    Bool.not_eq_false', List.isEmpty_iff]
  rw [allRequiredTargetsLit_iff, allTokensLit_iff]
  tauto

/-- The C1 counterexample board: a Laser at cell 0 firing East into the
absorbing side of a TargetMirror at cell 1 (lit, target-lit), plus an
untouched TargetMirror at cell 24. -/
def extraTargetCells : Cells := fun i =>
  if i = 0 then some (Token.new TokenType.laser (some Orientation.east) false)
  else if i = 1 then
    some (Token.new TokenType.targetMirror (some Orientation.west) false)
  else if i = 24 then
    some (Token.new TokenType.targetMirror (some Orientation.north) false)
  else none

/-- The C1 counterexample node: one required target, no bags. -/
def extraTargetNode : SolverNode := ⟨extraTargetCells, [], [], 1⟩

/-- The simulation pass over the C1 counterexample board. -/
def extraTargetRun : Option (Checker × Bool) :=
  (Checker.fromSolverNode extraTargetNode).check

/-- **C1 counterexample.**  After the simulation pass on
`extraTargetNode` all five conditions of claim C1 hold — the lit-target
count equals `targets` (= 1), every must-light target is lit, every
*touched* piece is lit, no beam went off-board, no pieces remain
unplaced — and yet `solved()` is `false` (the untouched TargetMirror at
cell 24 is not lit, and `solved()` requires *every* token to be lit). -/
theorem solved_touched_counterexample :
    extraTargetRun.map (fun r =>
      (r.1.solved, r.2,
        decide (r.1.grid.targets = r.1.countLitTargets),
        r.1.allRequiredTargetsLit,
        (List.range 25).all (fun i =>
          !(touchedCell r.1 extraTargetNode i)
            || (match r.1.grid.cells i with
                | some t => t.lit
                | none => true)),
        r.1.allLasersRemainOnBoard,
        r.1.remainingTokensToBeAdded))
      = some (false, false, true, true, true, true, false) := by
  rfl

/-- A trivially solved checker state: empty board, zero targets. -/
def emptySolvedChecker : Checker :=
  Checker.fromSolverNode ⟨fun _ => none, [], [], 0⟩

/-- Witness for C1: the five conditions hold on the empty zero-target
board, so `solved()` is `true` there. -/
theorem solved_iff_witness : emptySolvedChecker.solved = true := by
  refine (solved_iff emptySolvedChecker).mpr ⟨rfl, ?_, ?_, rfl, rfl, rfl⟩
  · intro i _ t ht _
    exact Option.noConfusion ht
  · intro i _ t ht
    exact Option.noConfusion ht

/-- The C5 counterexample puzzle: a Laser and a must-light TargetMirror
on the board, a second must-light TargetMirror in the bag, one required
target — two must-light targets in total against one target. -/
def bagMustLightPuzzle : LaserMazeSolver :=
  { initialGridConfig := fun i =>
      if i = 0 then some (Token.new TokenType.laser none false)
      else if i = 1 then some (Token.new TokenType.targetMirror none true)
      else none
    tokensToBeAdded := [Token.new TokenType.targetMirror none true]
    targets := 1 }

/-- **C5 counterexample.**  `bagMustLightPuzzle` has two must-light
target mirrors counting board and bag against a target count of one,
yet `validate` accepts it and `solve` proceeds to the search instead of
rejecting: the validation only counts must-light pieces already on the
board. -/
theorem must_light_bag_counterexample :
    bagMustLightPuzzle.mustLightTotal = 2
    ∧ bagMustLightPuzzle.targets = 1
    ∧ bagMustLightPuzzle.validate = Except.ok ()
    ∧ bagMustLightPuzzle.solve (fun _ => Sum.inr []) 2 =
      some (Except.ok none) := by
  refine ⟨by rfl, rfl, by rfl, by rfl⟩

/-- **C5** (corrected).  `solve()` rejects a puzzle before searching
whenever the number of must-light tokens *on the board alone* exceeds
the target count (bag pieces are not counted; see the counterexample):
the rejection happens with zero loop fuel, for any branch generator. -/
theorem must_light_validation (p : LaserMazeSolver)
    (g : SolverNode → Sum Cells (List SolverNode)) (fuel : Nat)
    (h : p.targets < p.mustLightCount) :
    ∃ m, p.solve g fuel = some (Except.error m) := by
  unfold LaserMazeSolver.solve LaserMazeSolver.validate
  by_cases h1 : p.targets = 0 ∨ 3 < p.targets
  · rw [if_pos h1]
    exact ⟨_, rfl⟩
  · rw [if_neg h1]
    cases hf : tokenTypes.find? (fun ty =>
        let r := tokenCountRange ty
        decide (p.tokenCount ty < r.1) || decide (r.2 < p.tokenCount ty)) with
    | some ty => exact ⟨_, rfl⟩
    | none =>
      rw [if_pos h]
      exact ⟨_, rfl⟩

/-- Witness for C5: the amended rejection on a concrete puzzle with two
on-board must-light targets against one target. -/
theorem must_light_validation_witness :
    ∃ m, LaserMazeSolver.solve
      { initialGridConfig := fun i =>
          if i = 0 then some (Token.new TokenType.laser none false)
          else if i = 1 then some (Token.new TokenType.targetMirror none true)
          else if i = 2 then some (Token.new TokenType.targetMirror none true)
          else none
        tokensToBeAdded := []
        targets := 1 }
      (fun _ => Sum.inr []) 0 = some (Except.error m) :=
  must_light_validation _ (fun _ => Sum.inr []) 0 (by decide)

/-- For bags of at most 200 tokens the `u8` counters of `validate`
cannot wrap, so they agree with the true counts. -/
theorem tokenCount_eq_trueTokenCount (p : LaserMazeSolver)
    (hlen : p.tokensToBeAdded.length ≤ 200) (ty : TokenType) :
    p.tokenCount ty = p.trueTokenCount ty := by
  unfold LaserMazeSolver.tokenCount LaserMazeSolver.trueTokenCount
  apply Nat.mod_eq_of_lt
  have h1 : p.gridCount ty ≤ 25 := by
    have := List.countP_le_length (l := List.range 25) (p := fun i =>
      match p.initialGridConfig i with
      | some t => decide (t.type_ = ty)
      | none => false)
    simpa [LaserMazeSolver.gridCount] using this
  have h2 : p.tokensToBeAdded.countP (fun t => decide (t.type_ = ty)) ≤ 200 :=
    le_trans (List.countP_le_length _) hlen
  omega

/-- Every `TokenType` occurs in the `TOKEN_TYPES` table. -/
theorem mem_tokenTypes (ty : TokenType) : ty ∈ tokenTypes := by
  cases ty <;> decide

/-- `validate` errors exactly on the conditions of `invalidPuzzle`
(for bags small enough that the `u8` counters do not wrap). -/
theorem validate_error_iff (p : LaserMazeSolver)
    (hlen : p.tokensToBeAdded.length ≤ 200) :
    (∃ m, p.validate = Except.error m) ↔ invalidPuzzle p := by
  unfold LaserMazeSolver.validate
  by_cases h1 : p.targets = 0 ∨ 3 < p.targets
  · rw [if_pos h1]
    exact iff_of_true ⟨_, rfl⟩ (Or.inl h1)
  · rw [if_neg h1]
    cases hf : tokenTypes.find? (fun ty =>
        let r := tokenCountRange ty
        decide (p.tokenCount ty < r.1) || decide (r.2 < p.tokenCount ty)) with
    | some ty =>
      refine iff_of_true ⟨_, rfl⟩ (Or.inr (Or.inl ⟨ty, ?_⟩))
      have hp := List.find?_some hf
      rw [← tokenCount_eq_trueTokenCount p hlen ty]
      simpa using hp
    | none =>
      by_cases h2 : p.targets < p.mustLightCount
      · rw [if_pos h2]
        exact iff_of_true ⟨_, rfl⟩ (Or.inr (Or.inr (Or.inl h2)))
      · rw [if_neg h2]
        by_cases h3 : p.tokensToBeAdded.any
            (fun t => t.type_ = TokenType.cellBlocker) = true
        · rw [if_pos h3]
          refine iff_of_true ⟨_, rfl⟩ (Or.inr (Or.inr (Or.inr ?_)))
          simpa using h3
        · rw [if_neg h3]
          refine iff_of_false ?_ ?_
          · rintro ⟨m, hm⟩
            exact Except.noConfusion hm
          · rintro (h | ⟨ty, hty⟩ | h | ⟨t, htm, htb⟩)
            · exact h1 h
            · have hnone := List.find?_eq_none.mp hf ty (mem_tokenTypes ty)
              rw [← tokenCount_eq_trueTokenCount p hlen ty] at hty
              simp only [Bool.or_eq_true, decide_eq_true_eq, not_or] at hnone
              omega
            · exact h2 h
            · exact h3 (List.any_eq_true.mpr ⟨t, htm, by simpa using htb⟩)

/-- The C4 counterexample puzzle: valid target count, valid piece
counts, no CellBlocker in the bag — but two on-board must-light targets
against one target. -/
def boardMustLightPuzzle : LaserMazeSolver :=
  { initialGridConfig := fun i =>
      if i = 0 then some (Token.new TokenType.laser none false)
      else if i = 1 then some (Token.new TokenType.targetMirror none true)
      else if i = 2 then some (Token.new TokenType.targetMirror none true)
      else none
    tokensToBeAdded := []
    targets := 1 }

/-- **C4 counterexample.**  All three error conditions enumerated by
claim C4 are absent from `boardMustLightPuzzle` (target count in 1..3,
every type's total count within its range, no CellBlocker in the bag),
yet `solve()` returns an error: the claim's "exactly when" omits the
must-light validation. -/
theorem solve_error_counterexample :
    (1 ≤ boardMustLightPuzzle.targets ∧ boardMustLightPuzzle.targets ≤ 3)
    ∧ (∀ ty : TokenType,
        (tokenCountRange ty).1 ≤ boardMustLightPuzzle.trueTokenCount ty
        ∧ boardMustLightPuzzle.trueTokenCount ty ≤ (tokenCountRange ty).2)
    ∧ boardMustLightPuzzle.tokensToBeAdded = []
    ∧ boardMustLightPuzzle.solve (fun _ => Sum.inr []) 0 =
      some (Except.error "Invalid number of pieces which must be lit!") := by
  refine ⟨by decide, by decide, rfl, by rfl⟩

/-- **C4** (corrected).  Whenever `solve()` completes it returns
`Err` exactly when the puzzle is invalid — target count outside 1..3,
some type's total (board + bag) count outside its fixed range, *more
on-board must-light tokens than targets* (the condition the claim
omitted), or a CellBlocker in the bag; on every valid puzzle the result
is `Ok` (`Ok(Some(cells))` or `Ok(None)`), never an error.  Stated for
any branch generator (the generator used by `solve` lives in
`src/solver/solver_node.rs`, which is not under `src/`) and for bags of
at most 200 tokens (so the validator's `u8` counters cannot wrap). -/
theorem solve_error_iff (p : LaserMazeSolver)
    (g : SolverNode → Sum Cells (List SolverNode)) (fuel : Nat)
    (r : Except String (Option Cells))
    (hlen : p.tokensToBeAdded.length ≤ 200)
    (hr : p.solve g fuel = some r) :
    (∃ m, r = Except.error m) ↔ invalidPuzzle p := by
  unfold LaserMazeSolver.solve at hr
  cases hv : p.validate with
  | error m =>
    rw [hv] at hr
    have hrm : r = Except.error m := by
      injection hr with h
      exact h.symm
    refine iff_of_true ⟨m, hrm⟩ ?_
    exact (validate_error_iff p hlen).mp ⟨m, hv⟩
  | ok u =>
    rw [hv] at hr
    obtain ⟨o, _, ho⟩ := Option.map_eq_some'.mp hr
    refine iff_of_false ?_ ?_
    · rintro ⟨m, hm⟩
      rw [← ho] at hm
      exact Except.noConfusion hm
    · intro hinv
      obtain ⟨m, hm⟩ := (validate_error_iff p hlen).mpr hinv
      rw [hv] at hm
      exact Except.noConfusion hm

/-- A small valid puzzle: a Laser and a TargetMirror on the board. -/
def validSmallPuzzle : LaserMazeSolver :=
  { initialGridConfig := fun i =>
      if i = 0 then some (Token.new TokenType.laser none false)
      else if i = 1 then some (Token.new TokenType.targetMirror none false)
      else none
    tokensToBeAdded := []
    targets := 1 }

/-- Witness for C4: on the concrete valid puzzle the loop completes with
`Ok(None)` under the trivial generator, so by the theorem the puzzle
satisfies none of the invalidity conditions. -/
theorem solve_error_iff_witness : ¬ invalidPuzzle validSmallPuzzle := by
  intro h
  obtain ⟨m, hm⟩ := (solve_error_iff validSmallPuzzle (fun _ => Sum.inr []) 2
    (Except.ok none) (by decide) (by rfl)).mpr h
  exact Except.noConfusion hm

/-- The token pushed for the must-light-TargetMirror category. -/
def tokMust : Token := Token.new TokenType.targetMirror none true

/-- The token pushed for the free-TargetMirror category. -/
def tokFree : Token := Token.new TokenType.targetMirror none false

/-- The token pushed for the Checkpoint category. -/
def tokCp : Token := Token.new TokenType.checkpoint none false

/-- The token pushed for the DoubleMirror category. -/
def tokDm : Token := Token.new TokenType.doubleMirror none false

/-- The token pushed for the BeamSplitter category. -/
def tokBs : Token := Token.new TokenType.beamSplitter none false

/-- A token equals at most one of the five category tokens. -/
theorem category_indicator_le_one (t : Token) :
    (if t = tokMust then 1 else 0) + (if t = tokFree then 1 else 0)
      + (if t = tokCp then 1 else 0) + (if t = tokDm then 1 else 0)
      + (if t = tokBs then 1 else 0) ≤ 1 := by
  by_cases h1 : t = tokMust
  · subst h1; decide
  · by_cases h2 : t = tokFree
    · subst h2; decide
    · by_cases h3 : t = tokCp
      · subst h3; decide
      · by_cases h4 : t = tokDm
        · subst h4; decide
        · by_cases h5 : t = tokBs
          · subst h5; decide
          · simp [h1, h2, h3, h4, h5]

/-- The five category counts of a token list cannot exceed its length. -/
theorem category_counts_le_length (σ : List Token) :
    σ.count tokMust + σ.count tokFree + σ.count tokCp + σ.count tokDm
      + σ.count tokBs ≤ σ.length := by
  induction σ with
  | nil => simp
  | cons t σ' ih =>
    simp only [List.count_cons, List.length_cons, beq_iff_eq]
    have := category_indicator_le_one t
    omega

/-- Membership in `backtrack a b c d e cur`: exactly the lists `cur ++ σ`
where `σ` has the prescribed category counts and no other elements. -/
theorem mem_backtrack :
    ∀ (n a b c d e : Nat) (cur l : List Token), a + b + c + d + e = n →
      (l ∈ backtrack a b c d e cur ↔
        ∃ σ, l = cur ++ σ ∧ σ.count tokMust = a ∧ σ.count tokFree = b
          ∧ σ.count tokCp = c ∧ σ.count tokDm = d ∧ σ.count tokBs = e
          ∧ σ.length = a + b + c + d + e) := by
  intro n
  induction n using Nat.strong_induction_on with
  | _ n ih =>
    intro a b c d e cur l hsum
    rw [backtrack]
    by_cases h0 : a = 0 ∧ b = 0 ∧ c = 0 ∧ d = 0 ∧ e = 0
    · obtain ⟨ha, hb, hc, hd, he⟩ := h0
      subst ha; subst hb; subst hc; subst hd; subst he
      rw [if_pos ⟨rfl, rfl, rfl, rfl, rfl⟩]
      simp only [List.mem_singleton]
      constructor
      · intro h
        exact ⟨[], by simpa using h, rfl, rfl, rfl, rfl, rfl, rfl⟩
      · rintro ⟨σ, rfl, -, -, -, -, -, hlen⟩
        have : σ = [] := List.eq_nil_of_length_eq_zero (by omega)
        simp [this]
    · rw [if_neg h0]
      have hnpos : 0 < n := by omega
      constructor
      · intro hmem
        have hcase := List.mem_append.mp hmem
        rcases hcase with hcase | hE
        rcases List.mem_append.mp hcase with hcase | hD
        rcases List.mem_append.mp hcase with hcase | hC
        rcases List.mem_append.mp hcase with hA | hB
        · by_cases hx : a > 0
          · rw [if_pos hx] at hA
            obtain ⟨σ', hl, h1, h2, h3, h4, h5, hlen⟩ :=
              (ih (n - 1) (by omega) (a - 1) b c d e (cur ++ [tokMust]) l
                (by omega)).mp hA
            refine ⟨tokMust :: σ', ?_, ?_, ?_, ?_, ?_, ?_, ?_⟩
            · rw [hl]; simp
            · rw [List.count_cons_self]; omega
            · rw [List.count_cons_of_ne (by decide : tokFree ≠ tokMust)]
              omega
            · rw [List.count_cons_of_ne (by decide : tokCp ≠ tokMust)]; omega
            · rw [List.count_cons_of_ne (by decide : tokDm ≠ tokMust)]; omega
            · rw [List.count_cons_of_ne (by decide : tokBs ≠ tokMust)]; omega
            · rw [List.length_cons]; omega
          · rw [if_neg hx] at hA
            exact absurd hA (List.not_mem_nil l)
        · by_cases hx : b > 0
          · rw [if_pos hx] at hB
            obtain ⟨σ', hl, h1, h2, h3, h4, h5, hlen⟩ :=
              (ih (n - 1) (by omega) a (b - 1) c d e (cur ++ [tokFree]) l
                (by omega)).mp hB
            refine ⟨tokFree :: σ', ?_, ?_, ?_, ?_, ?_, ?_, ?_⟩
            · rw [hl]; simp
            · rw [List.count_cons_of_ne (by decide : tokMust ≠ tokFree)]
              omega
            · rw [List.count_cons_self]; omega
            · rw [List.count_cons_of_ne (by decide : tokCp ≠ tokFree)]; omega
            · rw [List.count_cons_of_ne (by decide : tokDm ≠ tokFree)]; omega
            · rw [List.count_cons_of_ne (by decide : tokBs ≠ tokFree)]; omega
            · rw [List.length_cons]; omega
          · rw [if_neg hx] at hB
            exact absurd hB (List.not_mem_nil l)
        · by_cases hx : c > 0
          · rw [if_pos hx] at hC
            obtain ⟨σ', hl, h1, h2, h3, h4, h5, hlen⟩ :=
              (ih (n - 1) (by omega) a b (c - 1) d e (cur ++ [tokCp]) l
                (by omega)).mp hC
            refine ⟨tokCp :: σ', ?_, ?_, ?_, ?_, ?_, ?_, ?_⟩
            · rw [hl]; simp
            · rw [List.count_cons_of_ne (by decide : tokMust ≠ tokCp)]; omega
            · rw [List.count_cons_of_ne (by decide : tokFree ≠ tokCp)]; omega
            · rw [List.count_cons_self]; omega
            · rw [List.count_cons_of_ne (by decide : tokDm ≠ tokCp)]; omega
            · rw [List.count_cons_of_ne (by decide : tokBs ≠ tokCp)]; omega
            · rw [List.length_cons]; omega
          · rw [if_neg hx] at hC
            exact absurd hC (List.not_mem_nil l)
        · by_cases hx : d > 0
          · rw [if_pos hx] at hD
            obtain ⟨σ', hl, h1, h2, h3, h4, h5, hlen⟩ :=
              (ih (n - 1) (by omega) a b c (d - 1) e (cur ++ [tokDm]) l
                (by omega)).mp hD
            refine ⟨tokDm :: σ', ?_, ?_, ?_, ?_, ?_, ?_, ?_⟩
            · rw [hl]; simp
            · rw [List.count_cons_of_ne (by decide : tokMust ≠ tokDm)]; omega
            · rw [List.count_cons_of_ne (by decide : tokFree ≠ tokDm)]; omega
            · rw [List.count_cons_of_ne (by decide : tokCp ≠ tokDm)]; omega
            · rw [List.count_cons_self]; omega
            · rw [List.count_cons_of_ne (by decide : tokBs ≠ tokDm)]; omega
            · rw [List.length_cons]; omega
          · rw [if_neg hx] at hD
            exact absurd hD (List.not_mem_nil l)
        · by_cases hx : e > 0
          · rw [if_pos hx] at hE
            obtain ⟨σ', hl, h1, h2, h3, h4, h5, hlen⟩ :=
              (ih (n - 1) (by omega) a b c d (e - 1) (cur ++ [tokBs]) l
                (by omega)).mp hE
            refine ⟨tokBs :: σ', ?_, ?_, ?_, ?_, ?_, ?_, ?_⟩
            · rw [hl]; simp
            · rw [List.count_cons_of_ne (by decide : tokMust ≠ tokBs)]; omega
            · rw [List.count_cons_of_ne (by decide : tokFree ≠ tokBs)]; omega
            · rw [List.count_cons_of_ne (by decide : tokCp ≠ tokBs)]; omega
            · rw [List.count_cons_of_ne (by decide : tokDm ≠ tokBs)]; omega
            · rw [List.count_cons_self]; omega
            · rw [List.length_cons]; omega
          · rw [if_neg hx] at hE
            exact absurd hE (List.not_mem_nil l)
      · rintro ⟨σ, rfl, h1, h2, h3, h4, h5, hlen⟩
        cases σ with
        | nil => simp at hlen; omega
        | cons t σ' =>
          rw [List.length_cons] at hlen
          by_cases ht1 : t = tokMust
          · subst ht1
            rw [List.count_cons_self] at h1
            rw [List.count_cons_of_ne (by decide : tokFree ≠ tokMust)] at h2
            rw [List.count_cons_of_ne (by decide : tokCp ≠ tokMust)] at h3
            rw [List.count_cons_of_ne (by decide : tokDm ≠ tokMust)] at h4
            rw [List.count_cons_of_ne (by decide : tokBs ≠ tokMust)] at h5
            have ha : 0 < a := by omega
            refine List.mem_append.mpr (Or.inl (List.mem_append.mpr (Or.inl
              (List.mem_append.mpr (Or.inl (List.mem_append.mpr
                (Or.inl ?_)))))))
            rw [if_pos ha]
            refine (ih (n - 1) (by omega) (a - 1) b c d e (cur ++ [tokMust])
              _ (by omega)).mpr ⟨σ', by simp, ?_, ?_, ?_, ?_, ?_, ?_⟩ <;>
              omega
          · by_cases ht2 : t = tokFree
            · subst ht2
              rw [List.count_cons_of_ne (by decide : tokMust ≠ tokFree)] at h1
              rw [List.count_cons_self] at h2
              rw [List.count_cons_of_ne (by decide : tokCp ≠ tokFree)] at h3
              rw [List.count_cons_of_ne (by decide : tokDm ≠ tokFree)] at h4
              rw [List.count_cons_of_ne (by decide : tokBs ≠ tokFree)] at h5
              have hb : 0 < b := by omega
              refine List.mem_append.mpr (Or.inl (List.mem_append.mpr (Or.inl
                (List.mem_append.mpr (Or.inl (List.mem_append.mpr
                  (Or.inr ?_)))))))
              rw [if_pos hb]
              refine (ih (n - 1) (by omega) a (b - 1) c d e (cur ++ [tokFree])
                _ (by omega)).mpr ⟨σ', by simp, ?_, ?_, ?_, ?_, ?_, ?_⟩ <;>
                omega
            · by_cases ht3 : t = tokCp
              · subst ht3
                rw [List.count_cons_of_ne (by decide : tokMust ≠ tokCp)] at h1
                rw [List.count_cons_of_ne (by decide : tokFree ≠ tokCp)] at h2
                rw [List.count_cons_self] at h3
                rw [List.count_cons_of_ne (by decide : tokDm ≠ tokCp)] at h4
                rw [List.count_cons_of_ne (by decide : tokBs ≠ tokCp)] at h5
                have hc : 0 < c := by omega
                refine List.mem_append.mpr (Or.inl (List.mem_append.mpr
                  (Or.inl (List.mem_append.mpr (Or.inr ?_)))))
                rw [if_pos hc]
                refine (ih (n - 1) (by omega) a b (c - 1) d e (cur ++ [tokCp])
                  _ (by omega)).mpr ⟨σ', by simp, ?_, ?_, ?_, ?_, ?_, ?_⟩ <;>
                  omega
              · by_cases ht4 : t = tokDm
                · subst ht4
                  rw [List.count_cons_of_ne
                    (by decide : tokMust ≠ tokDm)] at h1
                  rw [List.count_cons_of_ne
                    (by decide : tokFree ≠ tokDm)] at h2
                  rw [List.count_cons_of_ne (by decide : tokCp ≠ tokDm)] at h3
                  rw [List.count_cons_self] at h4
                  rw [List.count_cons_of_ne (by decide : tokBs ≠ tokDm)] at h5
                  have hd : 0 < d := by omega
                  refine List.mem_append.mpr (Or.inl (List.mem_append.mpr
                    (Or.inr ?_)))
                  rw [if_pos hd]
                  refine (ih (n - 1) (by omega) a b c (d - 1) e
                    (cur ++ [tokDm]) _ (by omega)).mpr
                    ⟨σ', by simp, ?_, ?_, ?_, ?_, ?_, ?_⟩ <;> omega
                · by_cases ht5 : t = tokBs
                  · subst ht5
                    rw [List.count_cons_of_ne
                      (by decide : tokMust ≠ tokBs)] at h1
                    rw [List.count_cons_of_ne
                      (by decide : tokFree ≠ tokBs)] at h2
                    rw [List.count_cons_of_ne
                      (by decide : tokCp ≠ tokBs)] at h3
                    rw [List.count_cons_of_ne
                      (by decide : tokDm ≠ tokBs)] at h4
                    rw [List.count_cons_self] at h5
                    have he : 0 < e := by omega
                    refine List.mem_append.mpr (Or.inr ?_)
                    rw [if_pos he]
                    refine (ih (n - 1) (by omega) a b c d (e - 1)
                      (cur ++ [tokBs]) _ (by omega)).mpr
                      ⟨σ', by simp, ?_, ?_, ?_, ?_, ?_, ?_⟩ <;> omega
                  · exfalso
                    rw [List.count_cons_of_ne (Ne.symm ht1)] at h1
                    rw [List.count_cons_of_ne (Ne.symm ht2)] at h2
                    rw [List.count_cons_of_ne (Ne.symm ht3)] at h3
                    rw [List.count_cons_of_ne (Ne.symm ht4)] at h4
                    rw [List.count_cons_of_ne (Ne.symm ht5)] at h5
                    have hle := category_counts_le_length σ'
                    omega

/-- Every list produced by `backtrack` starts with `cur` followed by the
pushed token, which is recoverable at position `cur.length`. -/
theorem backtrack_head_key (a b c d e : Nat) (cur : List Token) (tok : Token)
    (l : List Token) (h : l ∈ backtrack a b c d e (cur ++ [tok])) :
    (l.drop cur.length).head? = some tok := by
  obtain ⟨σ, rfl, -⟩ :=
    (mem_backtrack (a + b + c + d + e) a b c d e (cur ++ [tok]) l rfl).mp h
  rw [List.append_assoc, List.singleton_append, List.drop_left]
  rfl

/-- The orderings produced by `backtrack` are pairwise distinct. -/
theorem backtrack_nodup :
    ∀ (n a b c d e : Nat) (cur : List Token), a + b + c + d + e = n →
      (backtrack a b c d e cur).Nodup := by
  intro n
  induction n using Nat.strong_induction_on with
  | _ n ih =>
    intro a b c d e cur hsum
    rw [backtrack]
    by_cases h0 : a = 0 ∧ b = 0 ∧ c = 0 ∧ d = 0 ∧ e = 0
    · rw [if_pos h0]
      simp
    · rw [if_neg h0]
      -- each block is nodup, and blocks are distinguished by the token
      -- at position `cur.length`
      set B1 := (if a > 0 then backtrack (a - 1) b c d e (cur ++ [tokMust])
        else []) with hB1
      set B2 := (if b > 0 then backtrack a (b - 1) c d e (cur ++ [tokFree])
        else []) with hB2
      set B3 := (if c > 0 then backtrack a b (c - 1) d e (cur ++ [tokCp])
        else []) with hB3
      set B4 := (if d > 0 then backtrack a b c (d - 1) e (cur ++ [tokDm])
        else []) with hB4
      set B5 := (if e > 0 then backtrack a b c d (e - 1) (cur ++ [tokBs])
        else []) with hB5
      have k1 : ∀ l ∈ B1, (l.drop cur.length).head? = some tokMust := by
        intro l hl
        by_cases hpos : a > 0
        · rw [hB1, if_pos hpos] at hl
          exact backtrack_head_key _ _ _ _ _ cur tokMust l hl
        · rw [hB1, if_neg hpos] at hl
          exact absurd hl (List.not_mem_nil l)
      have k2 : ∀ l ∈ B2, (l.drop cur.length).head? = some tokFree := by
        intro l hl
        by_cases hpos : b > 0
        · rw [hB2, if_pos hpos] at hl
          exact backtrack_head_key _ _ _ _ _ cur tokFree l hl
        · rw [hB2, if_neg hpos] at hl
          exact absurd hl (List.not_mem_nil l)
      have k3 : ∀ l ∈ B3, (l.drop cur.length).head? = some tokCp := by
        intro l hl
        by_cases hpos : c > 0
        · rw [hB3, if_pos hpos] at hl
          exact backtrack_head_key _ _ _ _ _ cur tokCp l hl
        · rw [hB3, if_neg hpos] at hl
          exact absurd hl (List.not_mem_nil l)
      have k4 : ∀ l ∈ B4, (l.drop cur.length).head? = some tokDm := by
        intro l hl
        by_cases hpos : d > 0
        · rw [hB4, if_pos hpos] at hl
          exact backtrack_head_key _ _ _ _ _ cur tokDm l hl
        · rw [hB4, if_neg hpos] at hl
          exact absurd hl (List.not_mem_nil l)
      have k5 : ∀ l ∈ B5, (l.drop cur.length).head? = some tokBs := by
        intro l hl
        by_cases hpos : e > 0
        · rw [hB5, if_pos hpos] at hl
          exact backtrack_head_key _ _ _ _ _ cur tokBs l hl
        · rw [hB5, if_neg hpos] at hl
          exact absurd hl (List.not_mem_nil l)
      have n1 : B1.Nodup := by
        by_cases hpos : a > 0
        · rw [hB1, if_pos hpos]
          exact ih ((a - 1) + b + c + d + e) (by omega) _ _ _ _ _ _ rfl
        · rw [hB1, if_neg hpos]; exact List.nodup_nil
      have n2 : B2.Nodup := by
        by_cases hpos : b > 0
        · rw [hB2, if_pos hpos]
          exact ih (a + (b - 1) + c + d + e) (by omega) _ _ _ _ _ _ rfl
        · rw [hB2, if_neg hpos]; exact List.nodup_nil
      have n3 : B3.Nodup := by
        by_cases hpos : c > 0
        · rw [hB3, if_pos hpos]
          exact ih (a + b + (c - 1) + d + e) (by omega) _ _ _ _ _ _ rfl
        · rw [hB3, if_neg hpos]; exact List.nodup_nil
      have n4 : B4.Nodup := by
        by_cases hpos : d > 0
        · rw [hB4, if_pos hpos]
          exact ih (a + b + c + (d - 1) + e) (by omega) _ _ _ _ _ _ rfl
        · rw [hB4, if_neg hpos]; exact List.nodup_nil
      have n5 : B5.Nodup := by
        by_cases hpos : e > 0
        · rw [hB5, if_pos hpos]
          exact ih (a + b + c + d + (e - 1)) (by omega) _ _ _ _ _ _ rfl
        · rw [hB5, if_neg hpos]; exact List.nodup_nil
      have d45 : B4.Disjoint B5 := fun l h4 h5 =>
        absurd ((k4 l h4).symm.trans (k5 l h5)) (by decide)
      have n45 : (B4 ++ B5).Nodup := n4.append n5 d45
      have d345 : B3.Disjoint (B4 ++ B5) := by
        intro l h3 h45
        rcases List.mem_append.mp h45 with h | h
        · exact absurd ((k3 l h3).symm.trans (k4 l h)) (by decide)
        · exact absurd ((k3 l h3).symm.trans (k5 l h)) (by decide)
      have n345 : (B3 ++ B4 ++ B5).Nodup := by
        rw [List.append_assoc]
        exact n3.append n45 d345
      have d2345 : B2.Disjoint (B3 ++ B4 ++ B5) := by
        intro l h2 h345
        rcases List.mem_append.mp h345 with h34 | h
        · rcases List.mem_append.mp h34 with h | h
          · exact absurd ((k2 l h2).symm.trans (k3 l h)) (by decide)
          · exact absurd ((k2 l h2).symm.trans (k4 l h)) (by decide)
        · exact absurd ((k2 l h2).symm.trans (k5 l h)) (by decide)
      have n2345 : (B2 ++ B3 ++ B4 ++ B5).Nodup := by
        rw [List.append_assoc, List.append_assoc]
        rw [← List.append_assoc B3]
        exact n2.append n345 d2345
      have d12345 : B1.Disjoint (B2 ++ B3 ++ B4 ++ B5) := by
        intro l h1 hrest
        rcases List.mem_append.mp hrest with h234 | h
        · rcases List.mem_append.mp h234 with h23 | h
          · rcases List.mem_append.mp h23 with h | h
            · exact absurd ((k1 l h1).symm.trans (k2 l h)) (by decide)
            · exact absurd ((k1 l h1).symm.trans (k3 l h)) (by decide)
          · exact absurd ((k1 l h1).symm.trans (k4 l h)) (by decide)
        · exact absurd ((k1 l h1).symm.trans (k5 l h)) (by decide)
      have goal : (B1 ++ (B2 ++ B3 ++ B4 ++ B5)).Nodup :=
        n1.append n2345 d12345
      simpa [List.append_assoc] using goal

/-- The number of orderings produced by `backtrack`, in multiplicative
form: `length * (a! b! c! d! e!) = (a+b+c+d+e)!`. -/
theorem backtrack_length :
    ∀ (n a b c d e : Nat) (cur : List Token), a + b + c + d + e = n →
      (backtrack a b c d e cur).length *
        (a.factorial * b.factorial * c.factorial * d.factorial *
          e.factorial) = n.factorial := by
  intro n
  induction n using Nat.strong_induction_on with
  | _ n ih =>
    intro a b c d e cur hsum
    rw [backtrack]
    by_cases h0 : a = 0 ∧ b = 0 ∧ c = 0 ∧ d = 0 ∧ e = 0
    · obtain ⟨ha, hb, hc, hd, he⟩ := h0
      subst ha; subst hb; subst hc; subst hd; subst he
      rw [if_pos ⟨rfl, rfl, rfl, rfl, rfl⟩]
      have hn : n = 0 := by omega
      subst hn
      simp [Nat.factorial]
    · rw [if_neg h0]
      have hnpos : 0 < n := by omega
      obtain ⟨n', rfl⟩ : ∃ n', n = n' + 1 := ⟨n - 1, by omega⟩
      set K := a.factorial * b.factorial * c.factorial * d.factorial *
        e.factorial with hK
      have e1 : (if a > 0 then
          backtrack (a - 1) b c d e (cur ++ [tokMust]) else []).length * K
          = a * n'.factorial := by
        by_cases hx : a > 0
        · rw [if_pos hx]
          obtain ⟨a', rfl⟩ : ∃ a', a = a' + 1 := ⟨a - 1, by omega⟩
          have := ih n' (by omega) a' b c d e (cur ++ [tokMust]) (by omega)
          calc (backtrack a' b c d e (cur ++ [tokMust])).length * K
              = (a' + 1) * ((backtrack a' b c d e (cur ++ [tokMust])).length
                * (a'.factorial * b.factorial * c.factorial * d.factorial *
                  e.factorial)) := by
                rw [hK, Nat.factorial_succ]; ring
            _ = (a' + 1) * n'.factorial := by rw [this]
        · rw [if_neg hx]
          have : a = 0 := by omega
          simp [this]
      have e2 : (if b > 0 then
          backtrack a (b - 1) c d e (cur ++ [tokFree]) else []).length * K
          = b * n'.factorial := by
        by_cases hx : b > 0
        · rw [if_pos hx]
          obtain ⟨b', rfl⟩ : ∃ b', b = b' + 1 := ⟨b - 1, by omega⟩
          have := ih n' (by omega) a b' c d e (cur ++ [tokFree]) (by omega)
          calc (backtrack a b' c d e (cur ++ [tokFree])).length * K
              = (b' + 1) * ((backtrack a b' c d e (cur ++ [tokFree])).length
                * (a.factorial * b'.factorial * c.factorial * d.factorial *
                  e.factorial)) := by
                rw [hK, Nat.factorial_succ]; ring
            _ = (b' + 1) * n'.factorial := by rw [this]
        · rw [if_neg hx]
          have : b = 0 := by omega
          simp [this]
      have e3 : (if c > 0 then
          backtrack a b (c - 1) d e (cur ++ [tokCp]) else []).length * K
          = c * n'.factorial := by
        by_cases hx : c > 0
        · rw [if_pos hx]
          obtain ⟨c', rfl⟩ : ∃ c', c = c' + 1 := ⟨c - 1, by omega⟩
          have := ih n' (by omega) a b c' d e (cur ++ [tokCp]) (by omega)
          calc (backtrack a b c' d e (cur ++ [tokCp])).length * K
              = (c' + 1) * ((backtrack a b c' d e (cur ++ [tokCp])).length
                * (a.factorial * b.factorial * c'.factorial * d.factorial *
                  e.factorial)) := by
                rw [hK, Nat.factorial_succ]; ring
            _ = (c' + 1) * n'.factorial := by rw [this]
        · rw [if_neg hx]
          have : c = 0 := by omega
          simp [this]
      have e4 : (if d > 0 then
          backtrack a b c (d - 1) e (cur ++ [tokDm]) else []).length * K
          = d * n'.factorial := by
        by_cases hx : d > 0
        · rw [if_pos hx]
          obtain ⟨d', rfl⟩ : ∃ d', d = d' + 1 := ⟨d - 1, by omega⟩
          have := ih n' (by omega) a b c d' e (cur ++ [tokDm]) (by omega)
          calc (backtrack a b c d' e (cur ++ [tokDm])).length * K
              = (d' + 1) * ((backtrack a b c d' e (cur ++ [tokDm])).length
                * (a.factorial * b.factorial * c.factorial * d'.factorial *
                  e.factorial)) := by
                rw [hK, Nat.factorial_succ]; ring
            _ = (d' + 1) * n'.factorial := by rw [this]
        · rw [if_neg hx]
          have : d = 0 := by omega
          simp [this]
      have e5 : (if e > 0 then
          backtrack a b c d (e - 1) (cur ++ [tokBs]) else []).length * K
          = e * n'.factorial := by
        by_cases hx : e > 0
        · rw [if_pos hx]
          obtain ⟨e', rfl⟩ : ∃ e', e = e' + 1 := ⟨e - 1, by omega⟩
          have := ih n' (by omega) a b c d e' (cur ++ [tokBs]) (by omega)
          calc (backtrack a b c d e' (cur ++ [tokBs])).length * K
              = (e' + 1) * ((backtrack a b c d e' (cur ++ [tokBs])).length
                * (a.factorial * b.factorial * c.factorial * d.factorial *
                  e'.factorial)) := by
                rw [hK, Nat.factorial_succ]; ring
            _ = (e' + 1) * n'.factorial := by rw [this]
        · rw [if_neg hx]
          have : e = 0 := by omega
          simp [this]
      simp only [show Token.new TokenType.targetMirror none true = tokMust
          from rfl,
        show Token.new TokenType.targetMirror none false = tokFree from rfl,
        show Token.new TokenType.checkpoint none false = tokCp from rfl,
        show Token.new TokenType.doubleMirror none false = tokDm from rfl,
        show Token.new TokenType.beamSplitter none false = tokBs from rfl]
      rw [List.length_append, List.length_append, List.length_append,
        List.length_append, Nat.add_mul, Nat.add_mul, Nat.add_mul,
        Nat.add_mul, e1, e2, e3, e4, e5]
      have : a * n'.factorial + b * n'.factorial + c * n'.factorial
          + d * n'.factorial + e * n'.factorial
          = (a + b + c + d + e) * n'.factorial := by ring
      rw [this, hsum, Nat.factorial_succ]

/-- Splitting a `countP` along a second predicate. -/
theorem countP_split (l : List Token) (p q : Token → Bool) :
    l.countP (fun t => p t && q t) + l.countP (fun t => p t && !q t)
      = l.countP p := by
  induction l with
  | nil => simp
  | cons t l ihl =>
    simp only [List.countP_cons]
    cases hp : p t <;> cases hq : q t <;> simp <;> omega

/-- The number of must-light TargetMirrors in a bag (claim C9's first
category). -/
def catMust (bag : List Token) : Nat :=
  bag.countP (fun t =>
    decide (t.type_ = TokenType.targetMirror) && t.mustLight)

/-- The number of free (not-must-light) TargetMirrors in a bag. -/
def catFree (bag : List Token) : Nat :=
  bag.countP (fun t =>
    decide (t.type_ = TokenType.targetMirror) && !t.mustLight)

/-- The number of Checkpoints in a bag. -/
def catCp (bag : List Token) : Nat :=
  bag.countP (fun t => t.type_ = TokenType.checkpoint)

/-- The number of DoubleMirrors in a bag. -/
def catDm (bag : List Token) : Nat :=
  bag.countP (fun t => t.type_ = TokenType.doubleMirror)

/-- The number of BeamSplitters in a bag. -/
def catBs (bag : List Token) : Nat :=
  bag.countP (fun t => t.type_ = TokenType.beamSplitter)

/-- **C9** (confirmed).  When every must-light bag token is a
TargetMirror (the invariant `Token::new` maintains), the shuffling step
produces one child per distinct ordering of the bag's category multiset:
no two children carry the same ordering; every child has its
`tokens_to_be_added` emptied, all other node fields unchanged, and a
shuffled list that is a permutation of the bag's five-category multiset
(its category counts and total length match the bag's); and the number
of children times `mu! fr! cp! dm! bs!` is `(mu+fr+cp+dm+bs)!`, i.e. the
child count is the multinomial coefficient. -/
theorem shuffled_branches_spec (n : SolverNodeV1)
    (_hne : n.tokensToBeAdded ≠ [])
    (hml : ∀ t ∈ n.tokensToBeAdded, t.mustLight = true →
      t.type_ = TokenType.targetMirror) :
    ((n.generateShuffledTokensToBeAddedBranches).map
      (fun x => x.tokensToBeAddedShuffled)).Nodup
    ∧ (∀ x ∈ n.generateShuffledTokensToBeAddedBranches,
        x.tokensToBeAdded = []
        ∧ x.cells = n.cells ∧ x.laserVisited = n.laserVisited
        ∧ x.activeLasers = n.activeLasers ∧ x.targets = n.targets
        ∧ x.tokensToBeAddedShuffled.count tokMust = catMust n.tokensToBeAdded
        ∧ x.tokensToBeAddedShuffled.count tokFree = catFree n.tokensToBeAdded
        ∧ x.tokensToBeAddedShuffled.count tokCp = catCp n.tokensToBeAdded
        ∧ x.tokensToBeAddedShuffled.count tokDm = catDm n.tokensToBeAdded
        ∧ x.tokensToBeAddedShuffled.count tokBs = catBs n.tokensToBeAdded
        ∧ x.tokensToBeAddedShuffled.length
          = catMust n.tokensToBeAdded + catFree n.tokensToBeAdded
            + catCp n.tokensToBeAdded + catDm n.tokensToBeAdded
            + catBs n.tokensToBeAdded)
    ∧ (n.generateShuffledTokensToBeAddedBranches).length *
        ((catMust n.tokensToBeAdded).factorial
          * (catFree n.tokensToBeAdded).factorial
          * (catCp n.tokensToBeAdded).factorial
          * (catDm n.tokensToBeAdded).factorial
          * (catBs n.tokensToBeAdded).factorial)
        = (catMust n.tokensToBeAdded + catFree n.tokensToBeAdded
            + catCp n.tokensToBeAdded + catDm n.tokensToBeAdded
            + catBs n.tokensToBeAdded).factorial
    ∧ (n.generateShuffledTokensToBeAddedBranches).length
        = (catMust n.tokensToBeAdded + catFree n.tokensToBeAdded
            + catCp n.tokensToBeAdded + catDm n.tokensToBeAdded
            + catBs n.tokensToBeAdded).factorial /
          ((catMust n.tokensToBeAdded).factorial
            * (catFree n.tokensToBeAdded).factorial
            * (catCp n.tokensToBeAdded).factorial
            * (catDm n.tokensToBeAdded).factorial
            * (catBs n.tokensToBeAdded).factorial) := by
  clear _hne
  set bag := n.tokensToBeAdded with hbag
  -- the source counters agree with the claim-side category counts
  have ha : n.countMustLightTokensToBeAdded = catMust bag := by
    unfold SolverNodeV1.countMustLightTokensToBeAdded catMust
    refine List.countP_congr ?_
    intro t ht
    cases hm : t.mustLight with
    | false => simp
    | true =>
      have := hml t ht hm
      simp [this]
  have hsplit : catMust bag + catFree bag
      = n.countTokensToBeAddedByType TokenType.targetMirror := by
    unfold catMust catFree SolverNodeV1.countTokensToBeAddedByType
    exact countP_split bag _ (fun t => t.mustLight)
  have hb : n.countTokensToBeAddedByType TokenType.targetMirror
      - n.countMustLightTokensToBeAdded = catFree bag := by omega
  have hc : n.countTokensToBeAddedByType TokenType.checkpoint
      = catCp bag := rfl
  have hd : n.countTokensToBeAddedByType TokenType.doubleMirror
      = catDm bag := rfl
  have he : n.countTokensToBeAddedByType TokenType.beamSplitter
      = catBs bag := rfl
  have hgen : n.generateShuffledTokensToBeAddedBranches
      = (backtrack (catMust bag) (catFree bag) (catCp bag) (catDm bag)
          (catBs bag) []).map (fun ordering => { n with tokensToBeAdded := ([] : List Token), tokensToBeAddedShuffled := ordering }) := by
    simp only [SolverNodeV1.generateShuffledTokensToBeAddedBranches]
    rw [hb, ha, hc, hd, he]
  refine ⟨?_, ?_, ?_, ?_⟩
  · rw [hgen, List.map_map]
    have hmapid : ((fun (x : SolverNodeV1) => x.tokensToBeAddedShuffled) ∘ (fun ordering => ({ n with tokensToBeAdded := ([] : List Token), tokensToBeAddedShuffled := ordering } : SolverNodeV1))) = id := rfl
    rw [hmapid, List.map_id]
    exact backtrack_nodup _ (catMust bag) (catFree bag) (catCp bag)
      (catDm bag) (catBs bag) [] rfl
  · intro x hx
    rw [hgen] at hx
    obtain ⟨ordering, hord, rfl⟩ := List.mem_map.mp hx
    obtain ⟨σ, hσ, h1, h2, h3, h4, h5, hlen⟩ :=
      (mem_backtrack _ (catMust bag) (catFree bag) (catCp bag) (catDm bag)
        (catBs bag) [] ordering rfl).mp hord
    rw [List.nil_append] at hσ
    subst hσ
    exact ⟨rfl, rfl, rfl, rfl, rfl, h1, h2, h3, h4, h5, hlen⟩
  · rw [hgen, List.length_map]
    exact backtrack_length _ (catMust bag) (catFree bag) (catCp bag)
      (catDm bag) (catBs bag) [] rfl
  · rw [hgen, List.length_map]
    refine (Nat.div_eq_of_eq_mul_left ?_ ?_).symm
    · positivity
    · exact (backtrack_length _ (catMust bag) (catFree bag) (catCp bag)
        (catDm bag) (catBs bag) [] rfl).symm

/-- The witness node for C9: a bag of one free TargetMirror and one
BeamSplitter. -/
def shuffleWitnessNode : SolverNodeV1 :=
  { cells := fun _ => none
    tokensToBeAdded := [Token.new TokenType.targetMirror none false,
      Token.new TokenType.beamSplitter none false]
    tokensToBeAddedShuffled := []
    laserVisited := fun _ _ => false
    activeLasers := [none, none, none, none]
    targets := 1 }

/-- Witness for C9: on the two-token bag the shuffling step produces
2 = 2!/1!1! distinct orderings. -/
theorem shuffled_branches_spec_witness :
    ((shuffleWitnessNode.generateShuffledTokensToBeAddedBranches).map
      (fun x => x.tokensToBeAddedShuffled)).Nodup
    ∧ (shuffleWitnessNode.generateShuffledTokensToBeAddedBranches).length
        = (catMust shuffleWitnessNode.tokensToBeAdded
            + catFree shuffleWitnessNode.tokensToBeAdded
            + catCp shuffleWitnessNode.tokensToBeAdded
            + catDm shuffleWitnessNode.tokensToBeAdded
            + catBs shuffleWitnessNode.tokensToBeAdded).factorial /
          ((catMust shuffleWitnessNode.tokensToBeAdded).factorial
            * (catFree shuffleWitnessNode.tokensToBeAdded).factorial
            * (catCp shuffleWitnessNode.tokensToBeAdded).factorial
            * (catDm shuffleWitnessNode.tokensToBeAdded).factorial
            * (catBs shuffleWitnessNode.tokensToBeAdded).factorial) :=
  have h := shuffled_branches_spec shuffleWitnessNode (by decide)
    (by decide)
  ⟨h.1, h.2.2.2⟩

/-- The parts of a token the simulation never changes: type, orientation
and must-light flag — and `target_lit` never loses its `Some`
(interactions only ever set it to `Some(true)`). -/
def tokenSkel (t1 t2 : Token) : Prop :=
  t2.type_ = t1.type_ ∧ t2.orientation = t1.orientation
    ∧ t2.mustLight = t1.mustLight
    ∧ (t1.targetLit.isSome = true → t2.targetLit.isSome = true)

/-- `tokenSkel` lifted to grid slots: emptiness is preserved exactly. -/
def optSkel : Option Token → Option Token → Prop
  | none, none => True
  | some t1, some t2 => tokenSkel t1 t2
  | _, _ => False

/-- `optSkel` is reflexive. -/
theorem optSkel_refl (o : Option Token) : optSkel o o := by
  cases o with
  | none => trivial
  | some t => exact ⟨rfl, rfl, rfl, fun h => h⟩

/-- `optSkel` is transitive. -/
theorem optSkel_trans {o1 o2 o3 : Option Token} (h12 : optSkel o1 o2)
    (h23 : optSkel o2 o3) : optSkel o1 o3 := by
  cases o1 with
  | none =>
    cases o2 with
    | none => exact h23
    | some t2 => exact absurd h12 (by simp [optSkel])
  | some t1 =>
    cases o2 with
    | none => exact absurd h12 (by simp [optSkel])
    | some t2 =>
      cases o3 with
      | none => exact absurd h23 (by simp [optSkel])
      | some t3 =>
        obtain ⟨a1, b1, c1, d1⟩ := h12
        obtain ⟨a2, b2, c2, d2⟩ := h23
        exact ⟨a2.trans a1, b2.trans b1, c2.trans c1, fun h => d2 (d1 h)⟩

/-- The reference interaction updates only `lit` / `target_lit`, and the
latter only to `Some(true)`. -/
theorem referenceOutboundLasers_skel (t : Token) (l : Orientation) :
    tokenSkel t (t.referenceOutboundLasers l).1 := by
  obtain ⟨ty, or, lit0, tl, ml⟩ := t
  cases ty <;> cases l <;>
    exact ⟨rfl, rfl, rfl, by intro h; first | exact h | rfl⟩

/-- `procResult` never touches the grid cells (success case). -/
theorem procResult_cells_ok (m : Mid) (next : Nat)
    (r : LaserTokenInteractionResult) (m' : Mid)
    (hm' : procResult m next r = Except.ok m') : m'.cells = m.cells := by
  unfold procResult at hm'
  split at hm'
  · split at hm' <;> (injection hm' with h; rw [← h])
  · split at hm'
    · injection hm' with h; rw [← h]
    · split at hm'
      · exact Except.noConfusion hm'
      · split at hm' <;> (injection hm' with h; rw [← h])

/-- `procResult` never touches the grid cells (panic case). -/
theorem procResult_cells_err (m : Mid) (next : Nat)
    (r : LaserTokenInteractionResult) (m' : Mid)
    (hm' : procResult m next r = Except.error m') : m'.cells = m.cells := by
  unfold procResult at hm'
  split at hm'
  · split at hm' <;> exact Except.noConfusion hm'
  · split at hm'
    · exact Except.noConfusion hm'
    · split at hm'
      · injection hm' with h; rw [← h]
      · split at hm' <;> exact Except.noConfusion hm'

/-- One active laser changes the grid only through the interaction at
the cell it enters, which preserves the token skeleton (stated for both
the success and the panic outcome). -/
theorem procOne_cells (m : Mid) (a : ActiveLaser) (m' : Mid)
    (hm' : procOne m a = Except.ok m' ∨ procOne m a = Except.error m') :
    ∀ i, optSkel (m.cells i) (m'.cells i) := by
  unfold procOne at hm'
  rcases hm' with hm' | hm' <;> split at hm'
  · -- success, beam exits the board
    injection hm' with h
    rw [← h]
    exact fun i => optSkel_refl _
  · -- success, beam advances into a cell
    next nxt heq =>
    split at hm'
    · -- the cell holds a token
      next token heq2 =>
      split at hm'
      · -- unoriented: the beam pauses
        injection hm' with h
        rw [← h]
        exact fun i => optSkel_refl _
      · -- oriented: interaction plus two results
        next p heq3 =>
        have hskel : ∀ i, optSkel (m.cells i)
            ((setCell m.cells nxt
              (some (token.referenceOutboundLasers
                (p.reorientInboundLaser a.orientation)).1)) i) := by
          intro i
          unfold setCell
          by_cases hi : i = nxt
          · subst hi
            rw [if_pos rfl, heq2]
            exact referenceOutboundLasers_skel token _
          · rw [if_neg hi]
            exact optSkel_refl _
        split at hm'
        · exact Except.noConfusion hm'
        · next m1 heq4 =>
          intro i
          have h1 := procResult_cells_ok _ _ _ _ heq4
          have h2 := procResult_cells_ok _ _ _ _ hm'
          rw [h2, h1]
          exact hskel i
    · -- the cell is empty
      split at hm'
      · exact Except.noConfusion hm'
      · injection hm' with h
        rw [← h]
        exact fun i => optSkel_refl _
  · -- panic, beam exits the board: impossible
    exact Except.noConfusion hm'
  · -- panic, beam advances into a cell
    next nxt heq =>
    split at hm'
    · next token heq2 =>
      split at hm'
      · exact Except.noConfusion hm'
      · next p heq3 =>
        have hskel : ∀ i, optSkel (m.cells i)
            ((setCell m.cells nxt
              (some (token.referenceOutboundLasers
                (p.reorientInboundLaser a.orientation)).1)) i) := by
          intro i
          unfold setCell
          by_cases hi : i = nxt
          · subst hi
            rw [if_pos rfl, heq2]
            exact referenceOutboundLasers_skel token _
          · rw [if_neg hi]
            exact optSkel_refl _
        split at hm'
        · next me heq4 =>
          injection hm' with h
          intro i
          rw [← h]
          have h1 := procResult_cells_err _ _ _ _ heq4
          rw [h1]
          exact hskel i
        · next m1 heq4 =>
          intro i
          have h1 := procResult_cells_ok _ _ _ _ heq4
          have h2 := procResult_cells_err _ _ _ _ hm'
          rw [h2, h1]
          exact hskel i
    · split at hm'
      · injection hm' with h
        rw [← h]
        exact fun i => optSkel_refl _
      · exact Except.noConfusion hm'

/-- The whole iteration fold preserves the token skeleton of every
cell. -/
theorem foldLasers_cells : ∀ (A : List ActiveLaser) (m m' : Mid),
    (foldLasers m A = Except.ok m' ∨ foldLasers m A = Except.error m') →
    ∀ i, optSkel (m.cells i) (m'.cells i) := by
  intro A
  induction A with
  | nil =>
    intro m m' h i
    rcases h with h | h
    · injection h with h
      rw [← h]
      exact optSkel_refl _
    · exact Except.noConfusion h
  | cons a rest ihA =>
    intro m m' h i
    unfold foldLasers at h
    cases hp : procOne m a with
    | error me =>
      rw [hp] at h
      rcases h with h | h
      · exact Except.noConfusion h
      · injection h with h
        rw [← h]
        exact procOne_cells m a me (Or.inr hp) i
    | ok m1 =>
      rw [hp] at h
      exact optSkel_trans (procOne_cells m a m1 (Or.inl hp) i)
        (ihA m1 m' h i)

/-- One outer loop iteration preserves the token skeleton of every
cell. -/
theorem step_cells (c : Checker) (i : Nat) :
    optSkel (c.grid.cells i) ((c.step.1).grid.cells i) := by
  have key : ∀ (m0 : Mid) (A : List ActiveLaser), m0.cells = c.grid.cells →
      optSkel (c.grid.cells i)
        (((match foldLasers m0 A with
            | Except.error m => (c.assemble m, true)
            | Except.ok m => (c.assemble m, false)) : Checker × Bool).1.grid.cells i) := by
    intro m0 A hm0
    cases hf : foldLasers m0 A with
    | error me =>
      have hx := foldLasers_cells A m0 me (Or.inr hf) i
      rw [hm0] at hx
      exact hx
    | ok mo =>
      have hx := foldLasers_cells A m0 mo (Or.inl hf) i
      rw [hm0] at hx
      exact hx
  exact key _ _ rfl

/-- The whole simulation loop preserves the token skeleton of every
cell. -/
theorem runCheck_cells : ∀ (fuel : Nat) (c : Checker) (s : Checker)
    (p : Bool), runCheck fuel c = some (s, p) →
    ∀ i, optSkel (c.grid.cells i) (s.grid.cells i) := by
  intro fuel
  induction fuel with
  | zero =>
    intro c s p h i
    rw [runCheck] at h
    split at h
    · exact Option.noConfusion h
    · injection h with h
      rw [← (Prod.mk.injEq _ _ _ _).mp h |>.1]
      exact optSkel_refl _
  | succ fuel ihf =>
    intro c s p h i
    rw [runCheck] at h
    split at h
    · rcases hstep : c.step with ⟨c', pan⟩
      rw [hstep] at h
      have hsc : optSkel (c.grid.cells i) (c'.grid.cells i) := by
        have hx := step_cells c i
        rw [hstep] at hx
        exact hx
      cases pan with
      | true =>
        simp only [] at h
        injection h with h
        rw [← (Prod.mk.injEq _ _ _ _).mp h |>.1]
        exact hsc
      | false =>
        simp only [] at h
        exact optSkel_trans hsc (ihf c' s p h i)
    · injection h with h
      rw [← (Prod.mk.injEq _ _ _ _).mp h |>.1]
      exact optSkel_refl _

/-- `Checker::initialize` never touches the grid. -/
theorem initialize2_grid (c c' : Checker) (h : c.initialize2 = some c') :
    c'.grid = c.grid := by
  unfold Checker.initialize2 at h
  split at h
  · injection h with h
    rw [← h]
  · split at h
    · split at h
      · exact Option.noConfusion h
      · injection h with h
        rw [← h]
    · injection h with h
      rw [← h]

/-- Claim C10's reset relation between a pre-simulation grid slot and a
post-`generate_branches` slot: same occupancy, same type, orientation
and must-light flag; `lit` back at its construction default (true
exactly for Laser and CellBlocker); a TargetMirror's `target_lit` back
at `Some(false)`. -/
def resetRelated : Option Token → Option Token → Prop
  | none, none => True
  | some t, some t' =>
    t'.type_ = t.type_ ∧ t'.orientation = t.orientation
      ∧ t'.mustLight = t.mustLight
      ∧ (t'.lit = true ↔
          (t.type_ = TokenType.laser ∨ t.type_ = TokenType.cellBlocker))
      ∧ (t.type_ = TokenType.targetMirror → t'.targetLit = some false)
  | _, _ => False

/-- Resetting a token whose skeleton matches the original produces a
slot in the reset relation (given the `Token::new` invariant that
TargetMirrors carry `Some` in `target_lit`). -/
theorem resetRelated_of_optSkel (o1 o2 : Option Token) (h : optSkel o1 o2)
    (htl : ∀ t, o1 = some t → t.type_ = TokenType.targetMirror →
      t.targetLit.isSome = true) :
    resetRelated o1 (o2.map Token.reset) := by
  cases o1 with
  | none =>
    cases o2 with
    | none => trivial
    | some s => exact absurd h (by simp [optSkel])
  | some t =>
    cases o2 with
    | none => exact absurd h (by simp [optSkel])
    | some s =>
      obtain ⟨hty, hor, hml, hmono⟩ := h
      refine ⟨hty, hor, hml, ?_, ?_⟩
      · show (decide (s.type_ = TokenType.cellBlocker
            ∨ s.type_ = TokenType.laser) = true) ↔ _
        rw [decide_eq_true_iff, hty]
        tauto
      · intro htm
        have h1 : t.targetLit.isSome = true := htl t rfl htm
        have h2 : s.targetLit.isSome = true := hmono h1
        show (if s.targetLit.isSome then some false else s.targetLit)
          = some false
        rw [h2, if_pos rfl]

/-- **C10** (confirmed).  `Checker::generate_branches` resets every
token's simulation state on both paths: on the solved path every slot of
the returned cells is `resetRelated` to the corresponding pre-simulation
slot, and on the unsolved path the children are generated from the
post-check grid with its tokens reset, every slot of which is likewise
`resetRelated` to the pre-simulation slot.  Stated under the
`Token::new` invariant that TargetMirrors carry `Some` in `target_lit`
(`SolverNode::reset_tokens` itself is modelled from the spec, §4.4:
"call `reset()` on every token"). -/
theorem generate_branches_resets (c : Checker)
    (hinv : ∀ i t, c.grid.cells i = some t →
      t.type_ = TokenType.targetMirror → t.targetLit.isSome = true)
    (r : Sum Cells (List SolverNode)) (hr : c.generateBranches = some r) :
    (∀ cells', r = Sum.inl cells' →
      ∀ i, resetRelated (c.grid.cells i) (cells' i))
    ∧ (∀ ch, r = Sum.inr ch → ∃ s, c.check = some (s, false)
        ∧ ch = Checker.generateBranchesAfterCheck
            { s with grid := s.grid.resetTokens }
        ∧ ∀ i, resetRelated (c.grid.cells i) ((s.grid.resetTokens).cells i)) := by
  unfold Checker.generateBranches at hr
  split at hr
  · exact Option.noConfusion hr
  · exact Option.noConfusion hr
  · next s hchk =>
      have hskel : ∀ i, optSkel (c.grid.cells i) (s.grid.cells i) := by
        intro i
        unfold Checker.check at hchk
        cases hinit : c.initialize2 with
        | none =>
          rw [hinit] at hchk
          exact Option.noConfusion hchk
        | some c0 =>
          rw [hinit] at hchk
          have hrun := runCheck_cells 101 c0 s false hchk i
          rw [initialize2_grid c c0 hinit] at hrun
          exact hrun
      have hreset : ∀ i, resetRelated (c.grid.cells i)
          ((s.grid.resetTokens).cells i) := by
        intro i
        show resetRelated (c.grid.cells i) ((s.grid.cells i).map Token.reset)
        exact resetRelated_of_optSkel _ _ (hskel i) (fun t ht => hinv i t ht)
      by_cases hsolved : s.solved = true
      · rw [if_pos hsolved] at hr
        injection hr with hr
        constructor
        · intro cells' hcells
          rw [← hr] at hcells
          injection hcells with hcells
          rw [← hcells]
          exact hreset
        · intro ch hch
          rw [← hr] at hch
          exact Sum.noConfusion hch
      · rw [if_neg hsolved] at hr
        injection hr with hr
        constructor
        · intro cells' hcells
          rw [← hr] at hcells
          exact Sum.noConfusion hcells
        · intro ch hch
          rw [← hr] at hch
          injection hch with hch
          exact ⟨s, hchk, hch.symm, hreset⟩

/-- The four directions, in `to_index` order. -/
def orientList : List Orientation :=
  [.north, .east, .south, .west]

/-- The 100 slots of the `laser_visited: [[bool; 4]; 25]` table. -/
def allPairs : List (Nat × Orientation) :=
  (List.range 25).flatMap (fun c => orientList.map (fun d => (c, d)))

/-- Number of `true` entries of the visited table. -/
def visitedCount (v : Nat → Orientation → Bool) : Nat :=
  allPairs.countP (fun p => v p.1 p.2)

theorem allPairs_nodup : allPairs.Nodup := by decide

theorem mem_allPairs (c : Nat) (d : Orientation) (hc : c < 25) :
    (c, d) ∈ allPairs := by
  unfold allPairs
  rw [List.mem_flatMap]
  exact ⟨c, List.mem_range.mpr hc,
    List.mem_map.mpr ⟨d, by cases d <;> decide, rfl⟩⟩

theorem visitedCount_le (v : Nat → Orientation → Bool) :
    visitedCount v ≤ 100 := by
  have h2 : allPairs.countP (fun p => v p.1 p.2) ≤ allPairs.length :=
    List.countP_le_length (fun (p : Nat × Orientation) => v p.1 p.2)
  have h : allPairs.length = 100 := by decide
  unfold visitedCount
  omega

theorem mark_eq_true_iff (v : Nat → Orientation → Bool) (c x : Nat)
    (d y : Orientation) :
    mark v c d x y = true ↔ (x = c ∧ y = d) ∨ v x y = true := by
  unfold mark
  by_cases h : x = c ∧ y = d
  · rw [if_pos h]
    exact ⟨fun _ => Or.inl h, fun _ => rfl⟩
  · rw [if_neg h]
    exact ⟨Or.inr, fun hv => hv.elim (fun hx => absurd hx h) id⟩

theorem mark_self (v : Nat → Orientation → Bool) (c : Nat)
    (d : Orientation) : mark v c d c d = true := by
  unfold mark
  rw [if_pos ⟨rfl, rfl⟩]

theorem mark_mono (v : Nat → Orientation → Bool) (c x : Nat)
    (d y : Orientation) (h : v x y = true) : mark v c d x y = true :=
  (mark_eq_true_iff v c x d y).mpr (Or.inr h)

theorem mark_other (v : Nat → Orientation → Bool) (c x : Nat)
    (d y : Orientation) (h : ¬(x = c ∧ y = d)) :
    mark v c d x y = v x y := by
  unfold mark
  rw [if_neg h]

/-- Counting lemma: changing a predicate from `false` to `true` at one
list element (present, no duplicates), leaving it unchanged elsewhere,
increments `countP` by one. -/
theorem countP_update {α : Type} (l : List α) (hl : l.Nodup) (a : α)
    (ha : a ∈ l) (p q : α → Bool) (hpa : p a = false) (hqa : q a = true)
    (hother : ∀ x ∈ l, x ≠ a → p x = q x) :
    l.countP q = l.countP p + 1 := by
  induction l with
  | nil => cases ha
  | cons hd tl ih =>
    rw [List.countP_cons, List.countP_cons]
    rcases List.mem_cons.mp ha with heq | hmem
    · subst heq
      rw [hpa, hqa, if_pos rfl, if_neg (by decide : ¬(false = true))]
      have hcg : tl.countP q = tl.countP p := by
        refine List.countP_congr (fun x hx => ?_)
        have hne : x ≠ a := fun h =>
          (List.nodup_cons.mp hl).1 (h ▸ hx)
        rw [hother x (List.mem_cons_of_mem _ hx) hne]
      omega
    · have hne : hd ≠ a := fun h =>
        (List.nodup_cons.mp hl).1 (h ▸ hmem)
      rw [hother hd (List.mem_cons_self _ _) hne,
        ih (List.nodup_cons.mp hl).2 hmem
          (fun x hx hxa => hother x (List.mem_cons_of_mem _ hx) hxa)]
      omega

/-- Counting lemma: a pointwise-monotone predicate change that flips at
least one present element from `false` to `true` strictly increases
`countP`. -/
theorem countP_lt {α : Type} (l : List α) (a : α) (ha : a ∈ l)
    (p q : α → Bool) (hmono : ∀ x ∈ l, p x = true → q x = true)
    (hpa : p a = false) (hqa : q a = true) :
    l.countP p < l.countP q := by
  induction l with
  | nil => cases ha
  | cons hd tl ih =>
    rw [List.countP_cons, List.countP_cons]
    have htl : tl.countP p ≤ tl.countP q :=
      List.countP_mono_left
        (fun x hx => hmono x (List.mem_cons_of_mem _ hx))
    rcases List.mem_cons.mp ha with heq | hmem
    · subst heq
      rw [hpa, hqa, if_pos rfl, if_neg (by decide : ¬(false = true))]
      omega
    · have hih := ih hmem (fun x hx => hmono x (List.mem_cons_of_mem _ hx))
      have hhd : (if p hd = true then 1 else 0)
          ≤ (if q hd = true then 1 else 0) := by
        by_cases hp : p hd = true
        · rw [if_pos hp, if_pos (hmono hd (List.mem_cons_self _ _) hp)]
        · rw [if_neg hp]
          omega
      omega

/-- A fresh mark inside the table increments the visited count. -/
theorem visitedCount_mark (v : Nat → Orientation → Bool) (c : Nat)
    (d : Orientation) (hv : v c d = false) (hc : c < 25) :
    visitedCount (mark v c d) = visitedCount v + 1 := by
  refine countP_update allPairs allPairs_nodup (c, d)
    (mem_allPairs c d hc) _ _ hv (mark_self v c d) ?_
  intro x _ hx
  exact (mark_other v c x.1 d x.2
    (fun h => hx (Prod.ext h.1 h.2))).symm

/-- A pointwise-monotone visited change with one fresh in-table mark
strictly increases the visited count. -/
theorem visitedCount_lt (v w : Nat → Orientation → Bool) (c : Nat)
    (d : Orientation) (hmono : ∀ x y, v x y = true → w x y = true)
    (hv : v c d = false) (hw : w c d = true) (hc : c < 25) :
    visitedCount v < visitedCount w :=
  countP_lt allPairs (c, d) (mem_allPairs c d hc) _ _
    (fun x _ hx => hmono x.1 x.2 hx) hv hw

/-- Stepping stays on the board. -/
theorem nextPosition_lt (a : ActiveLaser) (x : Nat)
    (ha : a.cellIndex < 25) (hx : a.nextPosition = some x) : x < 25 := by
  rcases a with ⟨i, d⟩
  simp only [] at ha
  cases d <;>
    (simp only [ActiveLaser.nextPosition] at hx
     split at hx
     · exact Option.noConfusion hx
     · injection hx with hx
       omega)

/-- Stepping never stays put. -/
theorem nextPosition_ne_self (a : ActiveLaser) (x : Nat)
    (hx : a.nextPosition = some x) : x ≠ a.cellIndex := by
  rcases a with ⟨i, d⟩
  show x ≠ i
  cases d <;>
    (simp only [ActiveLaser.nextPosition] at hx
     split at hx
     · exact Option.noConfusion hx
     · injection hx with hx
       omega)

/-- For a fixed direction the predecessor cell of a step target is
unique. -/
theorem nextPosition_inj (i j x : Nat) (d : Orientation)
    (hi : ActiveLaser.nextPosition ⟨i, d⟩ = some x)
    (hj : ActiveLaser.nextPosition ⟨j, d⟩ = some x) : i = j := by
  cases d <;>
    (simp only [ActiveLaser.nextPosition] at hi hj
     split at hi
     · exact Option.noConfusion hi
     · split at hj
       · exact Option.noConfusion hj
       · injection hi with hi
         injection hj with hj
         omega)

/-- Setting slot `k` past all the `some` entries appends to the
flattened laser list. -/
theorem filterMap_id_set {α : Type} (l : List (Option α)) :
    ∀ (k : Nat) (p : α), k < l.length → (∀ o ∈ l.drop k, o = none) →
      (l.set k (some p)).filterMap id = l.filterMap id ++ [p] := by
  induction l with
  | nil =>
    intro k p hk
    simp at hk
  | cons hd tl ih =>
    intro k p hk hall
    cases k with
    | zero =>
      have hhd : hd = none := hall hd (by simp)
      have htl : tl.filterMap id = [] :=
        List.filterMap_eq_nil_iff.mpr
          (fun o ho => by
            rw [hall o (List.mem_cons_of_mem _ ho)]
            rfl)
      subst hhd
      simp [htl]
    | succ k' =>
      have hk' : k' < tl.length := by simpa using hk
      have hall' : ∀ o ∈ tl.drop k', o = none := fun o ho =>
        hall o (by simpa using ho)
      cases hd with
      | none => simp [ih k' p hk' hall']
      | some a => simp [ih k' p hk' hall']

/-- Setting slot `k` does not change the tail past `k`. -/
theorem drop_succ_set {α : Type} (l : List α) :
    ∀ (k : Nat) (v : α), (l.set k v).drop (k + 1) = l.drop (k + 1) := by
  induction l with
  | nil => intro k v; rfl
  | cons hd tl ih =>
    intro k v
    cases k with
    | zero => rfl
    | succ k' => simpa using ih k' v

/-- A concrete checker on the empty zero-target board (no TargetMirror,
so the `Token::new` invariant holds vacuously). -/
def c10Checker : Checker :=
  Checker.fromSolverNode ⟨fun _ => none, [], [], 0⟩

/-- Witness for C10: on the empty board `generate_branches` takes the
solved path and every returned slot is reset-related to the original. -/
theorem generate_branches_resets_witness :
    c10Checker.generateBranches
        = some (Sum.inl (c10Checker.grid.resetTokens).cells)
      ∧ ∀ i, resetRelated (c10Checker.grid.cells i)
          ((c10Checker.grid.resetTokens).cells i) :=
  ⟨rfl,
    (generate_branches_resets c10Checker (fun _ _ ht => Option.noConfusion ht)
        (Sum.inl (c10Checker.grid.resetTokens).cells) rfl).1
      (c10Checker.grid.resetTokens).cells rfl⟩

/-- The outer-loop invariant of `Checker::check`, holding at every
iteration boundary of the `while self.has_active_lasers()` loop. -/
structure Inv (c : Checker) : Prop where
  i0 : ∀ a ∈ c.activeLasers.filterMap id, a.cellIndex < 25
  i1 : ∀ a ∈ c.activeLasers.filterMap id,
    c.laserVisited a.cellIndex a.orientation = true
  i2 : ∀ x d i, c.grid.cells x = none → c.laserVisited x d = true →
    ActiveLaser.nextPosition ⟨i, d⟩ = some x → c.laserVisited i d = true
  i3 : ∀ a ∈ c.activeLasers.filterMap id, ∀ x, a.nextPosition = some x →
    c.grid.cells x = none → c.laserVisited x a.orientation = false
  i4 : (c.activeLasers.filterMap id).Nodup
  i5 : c.markOps = visitedCount c.laserVisited
  i6 : ∀ x d, c.laserVisited x d = true → x < 25

/-- The inner-loop invariant of one iteration of `Checker::check`,
relating the loop locals `m` to the iteration-start state `s` whose
flattened active lasers are `A`; `R` is the still-unprocessed suffix of
`A`. -/
structure FoldInv (s : Checker) (A R : List ActiveLaser) (m : Mid) :
    Prop where
  jA25 : ∀ a ∈ A, a.cellIndex < 25
  jA1 : ∀ a ∈ A, s.laserVisited a.cellIndex a.orientation = true
  jemp : ∀ x, m.cells x = none ↔ s.grid.cells x = none
  jmono : ∀ x d, s.laserVisited x d = true → m.visited x d = true
  jlen : m.newLasers.length = 4
  jtail : ∀ o ∈ m.newLasers.drop m.newLaserIndex, o = none
  jvb : ∀ p ∈ m.newLasers.filterMap id,
    m.visited p.cellIndex p.orientation = true
  jfresh : ∀ p ∈ m.newLasers.filterMap id,
    s.laserVisited p.cellIndex p.orientation = false
  j25 : ∀ p ∈ m.newLasers.filterMap id, p.cellIndex < 25
  jnodup : (m.newLasers.filterMap id).Nodup
  jops : m.markOps = visitedCount m.visited
  jv25 : ∀ x d, m.visited x d = true → x < 25
  jI2 : ∀ x d i, m.cells x = none → m.visited x d = true →
    ActiveLaser.nextPosition ⟨i, d⟩ = some x → m.visited i d = true
  jR3 : ∀ a ∈ R, ∀ x, a.nextPosition = some x → m.cells x = none →
    m.visited x a.orientation = false
  jRsub : ∀ a ∈ R, a ∈ A
  jRnodup : R.Nodup
  jnew : ∀ x d, m.visited x d = true → s.laserVisited x d = true ∨
    (∃ t, m.cells x = some t) ∨
    ∃ a ∈ A, a.orientation = d ∧ a.nextPosition = some x

/-- The inner-loop invariant holds on entry to the laser loop. -/
theorem foldInv_init (s : Checker) (hInv : Inv s) :
    FoldInv s (s.activeLasers.filterMap id) (s.activeLasers.filterMap id)
      { cells := s.grid.cells
        visited := s.laserVisited
        newLasers := [none, none, none, none]
        newLaserIndex := 0
        unoriented := s.unorientedOccupiedCells
        flag := s.allLasersRemainOnBoard
        markOps := s.markOps } where
  jA25 := hInv.i0
  jA1 := hInv.i1
  jemp := fun _ => Iff.rfl
  jmono := fun _ _ h => h
  jlen := rfl
  jtail := fun o ho => by
    simp at ho
    exact ho
  jvb := fun p hp => by simp at hp
  jfresh := fun p hp => by simp at hp
  j25 := fun p hp => by simp at hp
  jnodup := by simp
  jops := hInv.i5
  jv25 := hInv.i6
  jI2 := hInv.i2
  jR3 := hInv.i3
  jRsub := fun _ h => h
  jRnodup := hInv.i4
  jnew := fun _ _ h => Or.inl h

/-- `Checker::initialize` establishes the outer-loop invariant. -/
theorem initChecker_inv (n : SolverNode) (c0 : Checker)
    (h : initChecker n = some c0) : Inv c0 := by
  unfold initChecker at h
  split at h
  · next hfind =>
    injection h with h
    subst h
    refine ⟨?_, ?_, ?_, ?_, ?_, ?_, ?_⟩ <;>
      first
        | exact fun a ha => by simp at ha
        | exact fun x d hx => by exact Bool.noConfusion hx
        | exact fun x d i _ hx => absurd hx (by simp)
        | simp [visitedCount]
  · next i hfind =>
    have hi : i < 25 :=
      List.mem_range.mp (List.mem_of_find?_eq_some hfind)
    have hpred := List.find?_some hfind
    split at h
    · next t htok =>
      split at h
      · exact Option.noConfusion h
      · next p horient =>
        injection h with h
        subst h
        refine ⟨?_, ?_, ?_, ?_, ?_, ?_, ?_⟩
        · intro a ha
          simp only [List.filterMap, id] at ha
          simp at ha
          subst ha
          exact hi
        · intro a ha
          simp at ha
          subst ha
          exact mark_self _ _ _
        · intro x d k hcell hx hk
          rcases (mark_eq_true_iff _ _ _ _ _).mp hx with ⟨hx1, _⟩ | hx2
          · subst hx1
            rw [htok] at hcell
            exact Option.noConfusion hcell
          · exact Bool.noConfusion hx2
        · intro a ha x hx hcell
          simp at ha
          subst ha
          show mark (fun _ _ => false) i p x p = false
          rw [mark_other]
          intro hc
          exact nextPosition_ne_self _ x hx hc.1
        · simp
        · show 1 = visitedCount (mark (fun _ _ => false) i p)
          rw [visitedCount_mark _ _ _ rfl hi]
          have : visitedCount (fun _ _ => false) = 0 := by
            unfold visitedCount
            rw [List.countP_eq_zero]
            intro a _
            exact fun hx => Bool.noConfusion hx
          omega
        · intro x d hx
          rcases (mark_eq_true_iff _ _ _ _ _).mp hx with ⟨hx1, _⟩ | hx2
          · subst hx1
            exact hi
          · exact Bool.noConfusion hx2
    · injection h with h
      subst h
      refine ⟨?_, ?_, ?_, ?_, ?_, ?_, ?_⟩ <;>
        first
          | exact fun a ha => by simp at ha
          | exact fun x d hx => by exact Bool.noConfusion hx
          | exact fun x d i _ hx => absurd hx (by simp)
          | simp [visitedCount]

/-- Transfer the inner-loop invariant across a state with equal
invariant-relevant fields. -/
theorem foldInv_congr (s : Checker) (A R : List ActiveLaser)
    (m m' : Mid) (hJ : FoldInv s A R m) (hc : m'.cells = m.cells)
    (hv : m'.visited = m.visited) (hn : m'.newLasers = m.newLasers)
    (hk : m'.newLaserIndex = m.newLaserIndex)
    (ho : m'.markOps = m.markOps) : FoldInv s A R m' where
  jA25 := hJ.jA25
  jA1 := hJ.jA1
  jemp := by rw [hc]; exact hJ.jemp
  jmono := by rw [hv]; exact hJ.jmono
  jlen := by rw [hn]; exact hJ.jlen
  jtail := by rw [hn, hk]; exact hJ.jtail
  jvb := by rw [hn, hv]; exact hJ.jvb
  jfresh := by rw [hn]; exact hJ.jfresh
  j25 := by rw [hn]; exact hJ.j25
  jnodup := by rw [hn]; exact hJ.jnodup
  jops := by rw [ho, hv]; exact hJ.jops
  jv25 := by rw [hv]; exact hJ.jv25
  jI2 := by rw [hc, hv]; exact hJ.jI2
  jR3 := by rw [hc, hv]; exact hJ.jR3
  jRsub := hJ.jRsub
  jRnodup := hJ.jRnodup
  jnew := by rw [hv, hc]; exact hJ.jnew

/-- A fresh mark at an occupied cell preserves the inner-loop
invariant. -/
theorem foldInv_mark_tok (s : Checker) (A R : List ActiveLaser)
    (m : Mid) (hJ : FoldInv s A R m) (c : Nat) (d : Orientation)
    (hfresh : m.visited c d = false) (hc : c < 25)
    (htok : ∃ t, m.cells c = some t) :
    FoldInv s A R { m with visited := mark m.visited c d,
                           markOps := m.markOps + 1 } where
  jA25 := hJ.jA25
  jA1 := hJ.jA1
  jemp := hJ.jemp
  jmono := fun x y h => mark_mono _ _ _ _ _ (hJ.jmono x y h)
  jlen := hJ.jlen
  jtail := hJ.jtail
  jvb := fun p hp => mark_mono _ _ _ _ _ (hJ.jvb p hp)
  jfresh := hJ.jfresh
  j25 := hJ.j25
  jnodup := hJ.jnodup
  jops := by
    show m.markOps + 1 = visitedCount (mark m.visited c d)
    rw [visitedCount_mark _ _ _ hfresh hc, hJ.jops]
  jv25 := fun x y h => by
    rcases (mark_eq_true_iff _ _ _ _ _).mp h with ⟨h1, _⟩ | h2
    · subst h1; exact hc
    · exact hJ.jv25 x y h2
  jI2 := fun x y i hcell hv hnext => by
    rcases (mark_eq_true_iff _ _ _ _ _).mp hv with ⟨h1, _⟩ | h2
    · subst h1
      rcases htok with ⟨t, ht⟩
      rw [ht] at hcell
      exact Option.noConfusion hcell
    · exact mark_mono _ _ _ _ _ (hJ.jI2 x y i hcell h2 hnext)
  jR3 := fun a ha x hx hcell => by
    show mark m.visited c d x a.orientation = false
    rw [mark_other]
    · exact hJ.jR3 a ha x hx hcell
    · intro hcd
      rcases htok with ⟨t, ht⟩
      rw [hcd.1, ht] at hcell
      exact Option.noConfusion hcell
  jRsub := hJ.jRsub
  jRnodup := hJ.jRnodup
  jnew := fun x y hv => by
    rcases (mark_eq_true_iff _ _ _ _ _).mp hv with ⟨h1, _⟩ | h2
    · subst h1
      exact Or.inr (Or.inl htok)
    · exact hJ.jnew x y h2

/-- Freshness of an entry in `m.visited` pulls back to the iteration
start state. -/
theorem fresh_start (s : Checker) (A R : List ActiveLaser) (m : Mid)
    (hJ : FoldInv s A R m) (c : Nat) (d : Orientation)
    (hfresh : m.visited c d = false) : s.laserVisited c d = false := by
  cases hs : s.laserVisited c d
  · rfl
  · rw [hJ.jmono c d hs] at hfresh
    exact Bool.noConfusion hfresh

/-- A fresh mark plus laser push at an occupied cell preserves the
inner-loop invariant. -/
theorem foldInv_mark_push_tok (s : Checker) (A R : List ActiveLaser)
    (m : Mid) (hJ : FoldInv s A R m) (c : Nat) (d : Orientation)
    (hfresh : m.visited c d = false) (hc : c < 25)
    (htok : ∃ t, m.cells c = some t) (hidx : m.newLaserIndex ≤ 3)
    (hnotin : (⟨c, d⟩ : ActiveLaser) ∉ m.newLasers.filterMap id) :
    FoldInv s A R { m with
      visited := mark m.visited c d
      markOps := m.markOps + 1
      newLasers := m.newLasers.set m.newLaserIndex (some ⟨c, d⟩)
      newLaserIndex := m.newLaserIndex + 1 } := by
  have hset : (m.newLasers.set m.newLaserIndex
        (some (⟨c, d⟩ : ActiveLaser))).filterMap id
      = m.newLasers.filterMap id ++ [⟨c, d⟩] :=
    filterMap_id_set _ _ _ (by rw [hJ.jlen]; omega) hJ.jtail
  refine ⟨hJ.jA25, hJ.jA1, hJ.jemp, ?_, ?_, ?_, ?_, ?_, ?_, ?_, ?_, ?_,
    ?_, ?_, hJ.jRsub, hJ.jRnodup, ?_⟩
  · exact fun x y h => mark_mono _ _ _ _ _ (hJ.jmono x y h)
  · show (m.newLasers.set _ _).length = 4
    rw [List.length_set]
    exact hJ.jlen
  · intro o ho
    show o = none
    rw [drop_succ_set] at ho
    have hdd := List.drop_drop 1 m.newLaserIndex m.newLasers
    rw [← hdd] at ho
    exact hJ.jtail o (List.mem_of_mem_drop ho)
  · intro p hp
    rw [hset] at hp
    rcases List.mem_append.mp hp with h | h
    · exact mark_mono _ _ _ _ _ (hJ.jvb p h)
    · rw [List.mem_singleton.mp h]
      exact mark_self _ _ _
  · intro p hp
    rw [hset] at hp
    rcases List.mem_append.mp hp with h | h
    · exact hJ.jfresh p h
    · rw [List.mem_singleton.mp h]
      exact fresh_start s A R m hJ c d hfresh
  · intro p hp
    rw [hset] at hp
    rcases List.mem_append.mp hp with h | h
    · exact hJ.j25 p h
    · rw [List.mem_singleton.mp h]
      exact hc
  · show ((m.newLasers.set _ _).filterMap id).Nodup
    rw [hset]
    refine hJ.jnodup.append (List.nodup_singleton _) ?_
    intro x hx hx2
    rw [List.mem_singleton.mp hx2] at hx
    exact hnotin hx
  · show m.markOps + 1 = visitedCount (mark m.visited c d)
    rw [visitedCount_mark _ _ _ hfresh hc, hJ.jops]
  · intro x y h
    rcases (mark_eq_true_iff _ _ _ _ _).mp h with ⟨h1, _⟩ | h2
    · subst h1; exact hc
    · exact hJ.jv25 x y h2
  · intro x y i hcell hv hnext
    rcases (mark_eq_true_iff _ _ _ _ _).mp hv with ⟨h1, _⟩ | h2
    · subst h1
      rcases htok with ⟨t, ht⟩
      rw [ht] at hcell
      exact Option.noConfusion hcell
    · exact mark_mono _ _ _ _ _ (hJ.jI2 x y i hcell h2 hnext)
  · intro a ha x hx hcell
    show mark m.visited c d x a.orientation = false
    rw [mark_other]
    · exact hJ.jR3 a ha x hx hcell
    · intro hcd
      rcases htok with ⟨t, ht⟩
      rw [hcd.1, ht] at hcell
      exact Option.noConfusion hcell
  · intro x y hv
    rcases (mark_eq_true_iff _ _ _ _ _).mp hv with ⟨h1, _⟩ | h2
    · subst h1
      exact Or.inr (Or.inl htok)
    · exact hJ.jnew x y h2

/-- Handling one interaction result at an occupied cell preserves the
inner-loop invariant; the panic path keeps the mark-count equation. -/
theorem procResult_inv (s : Checker) (A R : List ActiveLaser) (m : Mid)
    (next : Nat) (r : LaserTokenInteractionResult)
    (hJ : FoldInv s A R m) (hn25 : next < 25)
    (htok : ∃ t, m.cells next = some t) :
    (∀ m', procResult m next r = Except.ok m' → FoldInv s A R m')
    ∧ (∀ m', procResult m next r = Except.error m' →
        m'.markOps = visitedCount m'.visited) := by
  constructor
  · intro m' hm'
    unfold procResult at hm'
    split at hm'
    · split at hm'
      · injection hm' with h
        subst h
        exact hJ
      · injection hm' with h
        subst h
        exact foldInv_congr s A R m _ hJ rfl rfl rfl rfl rfl
    · next o =>
      split at hm'
      · injection hm' with h
        subst h
        exact hJ
      · next hvis =>
        have hfresh : m.visited next o = false := by
          cases hv : m.visited next o
          · rfl
          · exact absurd hv hvis
        split at hm'
        · exact Except.noConfusion hm'
        · next hidx =>
          split at hm'
          · injection hm' with h
            subst h
            exact foldInv_mark_tok s A R m hJ next o hfresh hn25 htok
          · next hcont =>
            injection hm' with h
            subst h
            refine foldInv_mark_push_tok s A R m hJ next o hfresh hn25
              htok (by omega) ?_
            intro hmem
            exact hcont (List.elem_iff.mpr hmem)
  · intro m' hm'
    unfold procResult at hm'
    split at hm'
    · split at hm' <;> exact Except.noConfusion hm'
    · next o =>
      split at hm'
      · exact Except.noConfusion hm'
      · next hvis =>
        have hfresh : m.visited next o = false := by
          cases hv : m.visited next o
          · rfl
          · exact absurd hv hvis
        split at hm'
        · injection hm' with h
          subst h
          show m.markOps + 1 = visitedCount (mark m.visited next o)
          rw [visitedCount_mark _ _ _ hfresh hn25, hJ.jops]
        · split at hm' <;> exact Except.noConfusion hm'

/-- Dropping the head of the unprocessed suffix. -/
theorem FoldInv.tail (s : Checker) (A : List ActiveLaser)
    (a : ActiveLaser) (R' : List ActiveLaser) (m : Mid)
    (hJ : FoldInv s A (a :: R') m) : FoldInv s A R' m :=
  ⟨hJ.jA25, hJ.jA1, hJ.jemp, hJ.jmono, hJ.jlen, hJ.jtail, hJ.jvb,
    hJ.jfresh, hJ.j25, hJ.jnodup, hJ.jops, hJ.jv25, hJ.jI2,
    fun b hb => hJ.jR3 b (List.mem_cons_of_mem _ hb),
    fun b hb => hJ.jRsub b (List.mem_cons_of_mem _ hb),
    (List.nodup_cons.mp hJ.jRnodup).2, hJ.jnew⟩

/-- Marking and scheduling the next empty cell of the currently
processed laser preserves the inner-loop invariant. -/
theorem foldInv_mark_push_empty (s : Checker) (A : List ActiveLaser)
    (a : ActiveLaser) (R' : List ActiveLaser) (m : Mid)
    (hJ : FoldInv s A (a :: R') m) (c : Nat)
    (hnext : a.nextPosition = some c) (hc : c < 25)
    (hemp : m.cells c = none) (hidx : m.newLaserIndex ≤ 3) :
    FoldInv s A R' { m with
      visited := mark m.visited c a.orientation
      markOps := m.markOps + 1
      newLasers := m.newLasers.set m.newLaserIndex
        (some ⟨c, a.orientation⟩)
      newLaserIndex := m.newLaserIndex + 1 } := by
  have hmem : a ∈ a :: R' := List.mem_cons_self _ _
  have hfresh : m.visited c a.orientation = false :=
    hJ.jR3 a hmem c hnext hemp
  have hnotin : (⟨c, a.orientation⟩ : ActiveLaser)
      ∉ m.newLasers.filterMap id := by
    intro hin
    rw [hJ.jvb _ hin] at hfresh
    exact Bool.noConfusion hfresh
  have hset : (m.newLasers.set m.newLaserIndex
        (some (⟨c, a.orientation⟩ : ActiveLaser))).filterMap id
      = m.newLasers.filterMap id ++ [⟨c, a.orientation⟩] :=
    filterMap_id_set _ _ _ (by rw [hJ.jlen]; omega) hJ.jtail
  refine ⟨hJ.jA25, hJ.jA1, hJ.jemp, ?_, ?_, ?_, ?_, ?_, ?_, ?_, ?_, ?_,
    ?_, ?_, ?_, ?_, ?_⟩
  · exact fun x y h => mark_mono _ _ _ _ _ (hJ.jmono x y h)
  · show (m.newLasers.set _ _).length = 4
    rw [List.length_set]
    exact hJ.jlen
  · intro o ho
    show o = none
    rw [drop_succ_set] at ho
    have hdd := List.drop_drop 1 m.newLaserIndex m.newLasers
    rw [← hdd] at ho
    exact hJ.jtail o (List.mem_of_mem_drop ho)
  · intro p hp
    rw [hset] at hp
    rcases List.mem_append.mp hp with h | h
    · exact mark_mono _ _ _ _ _ (hJ.jvb p h)
    · rw [List.mem_singleton.mp h]
      exact mark_self _ _ _
  · intro p hp
    rw [hset] at hp
    rcases List.mem_append.mp hp with h | h
    · exact hJ.jfresh p h
    · rw [List.mem_singleton.mp h]
      exact fresh_start s A (a :: R') m hJ c a.orientation hfresh
  · intro p hp
    rw [hset] at hp
    rcases List.mem_append.mp hp with h | h
    · exact hJ.j25 p h
    · rw [List.mem_singleton.mp h]
      exact hc
  · show ((m.newLasers.set _ _).filterMap id).Nodup
    rw [hset]
    refine hJ.jnodup.append (List.nodup_singleton _) ?_
    intro x hx hx2
    rw [List.mem_singleton.mp hx2] at hx
    exact hnotin hx
  · show m.markOps + 1 = visitedCount (mark m.visited c a.orientation)
    rw [visitedCount_mark _ _ _ hfresh hc, hJ.jops]
  · intro x y h
    rcases (mark_eq_true_iff _ _ _ _ _).mp h with ⟨h1, _⟩ | h2
    · subst h1; exact hc
    · exact hJ.jv25 x y h2
  · intro x y i hcell hv hnexti
    show mark m.visited c a.orientation i y = true
    rcases (mark_eq_true_iff _ _ _ _ _).mp hv with ⟨h1, h2⟩ | h2
    · rw [h2]
      rw [h1, h2] at hnexti
      have hia : i = a.cellIndex :=
        nextPosition_inj i a.cellIndex c a.orientation hnexti hnext
      rw [hia]
      exact mark_mono _ _ _ _ _
        (hJ.jmono _ _ (hJ.jA1 a (hJ.jRsub a hmem)))
    · exact mark_mono _ _ _ _ _ (hJ.jI2 x y i hcell h2 hnexti)
  · intro b hb x hx hcell
    show mark m.visited c a.orientation x b.orientation = false
    by_cases hbc : x = c ∧ b.orientation = a.orientation
    · exfalso
      obtain ⟨hx1, hbo⟩ := hbc
      subst hx1
      have hbi : b.cellIndex = a.cellIndex := by
        refine nextPosition_inj b.cellIndex a.cellIndex x
          a.orientation ?_ hnext
        rw [← hbo]
        exact hx
      have hba : b = a := by
        have h1 : b = (⟨b.cellIndex, b.orientation⟩ : ActiveLaser) := rfl
        have h2 : a = (⟨a.cellIndex, a.orientation⟩ : ActiveLaser) := rfl
        rw [h1, h2, hbi, hbo]
      exact (List.nodup_cons.mp hJ.jRnodup).1 (hba ▸ hb)
    · rw [mark_other _ _ _ _ _ hbc]
      exact hJ.jR3 b (List.mem_cons_of_mem _ hb) x hx hcell
  · exact fun b hb => hJ.jRsub b (List.mem_cons_of_mem _ hb)
  · exact (List.nodup_cons.mp hJ.jRnodup).2
  · intro x y hv
    rcases (mark_eq_true_iff _ _ _ _ _).mp hv with ⟨h1, h2⟩ | h2
    · subst h1
      subst h2
      exact Or.inr (Or.inr ⟨a, hJ.jRsub a hmem, rfl, hnext⟩)
    · exact hJ.jnew x y h2

/-- Replacing the interacted token in place preserves the inner-loop
invariant (occupancy is unchanged). -/
theorem foldInv_setCell_tok (s : Checker) (A R : List ActiveLaser)
    (m : Mid) (hJ : FoldInv s A R m) (nxt : Nat) (token : Token)
    (heq2 : m.cells nxt = some token) (t1 : Token) :
    FoldInv s A R { m with cells := (setCell m.cells nxt (some t1)) } := by
  have hemp : ∀ x, setCell m.cells nxt (some t1) x = none ↔
      m.cells x = none := by
    intro x
    unfold setCell
    by_cases hx : x = nxt
    · rw [if_pos hx]
      subst hx
      rw [heq2]
      constructor
      · intro h
        exact Option.noConfusion h
      · intro h
        exact Option.noConfusion h
    · rw [if_neg hx]
  refine ⟨hJ.jA25, hJ.jA1, ?_, hJ.jmono, hJ.jlen, hJ.jtail, hJ.jvb,
    hJ.jfresh, hJ.j25, hJ.jnodup, hJ.jops, hJ.jv25, ?_, ?_, hJ.jRsub,
    hJ.jRnodup, ?_⟩
  · intro x
    exact (hemp x).trans (hJ.jemp x)
  · intro x y i hcell hv hnexti
    exact hJ.jI2 x y i ((hemp x).mp hcell) hv hnexti
  · intro b hb x hx hcell
    exact hJ.jR3 b hb x hx ((hemp x).mp hcell)
  · intro x y hv
    rcases hJ.jnew x y hv with h | ⟨t, ht⟩ | h
    · exact Or.inl h
    · refine Or.inr (Or.inl ?_)
      show ∃ u, setCell m.cells nxt (some t1) x = some u
      unfold setCell
      by_cases hx : x = nxt
      · rw [if_pos hx]
        exact ⟨t1, rfl⟩
      · rw [if_neg hx]
        exact ⟨t, ht⟩
    · exact Or.inr (Or.inr h)

/-- Processing one active laser preserves the inner-loop invariant;
the panic path keeps the mark-count equation. -/
theorem procOne_inv (s : Checker) (A : List ActiveLaser)
    (a : ActiveLaser) (R' : List ActiveLaser) (m : Mid)
    (hJ : FoldInv s A (a :: R') m) :
    (∀ m', procOne m a = Except.ok m' → FoldInv s A R' m')
    ∧ (∀ m', procOne m a = Except.error m' →
        m'.markOps = visitedCount m'.visited) := by
  have hJt : FoldInv s A R' m := FoldInv.tail s A a R' m hJ
  constructor
  · intro m' hm'
    unfold procOne at hm'
    split at hm'
    · injection hm' with h
      subst h
      exact foldInv_congr s A R' m _ hJt rfl rfl rfl rfl rfl
    · next nxt hnext =>
      have hn25 : nxt < 25 :=
        nextPosition_lt a nxt
          (hJ.jA25 a (hJ.jRsub a (List.mem_cons_self _ _))) hnext
      split at hm'
      · next token heq2 =>
        split at hm'
        · injection hm' with h
          subst h
          refine ⟨hJt.jA25, hJt.jA1, hJt.jemp, hJt.jmono, hJt.jlen,
            ?_, hJt.jvb, hJt.jfresh, hJt.j25, hJt.jnodup, hJt.jops,
            hJt.jv25, hJt.jI2, hJt.jR3, hJt.jRsub, hJt.jRnodup,
            hJt.jnew⟩
          intro o ho
          show o = none
          have hdd := List.drop_drop 1 m.newLaserIndex m.newLasers
          rw [← hdd] at ho
          exact hJt.jtail o (List.mem_of_mem_drop ho)
        · next p horient =>
          have htokState : ∃ t,
              (setCell m.cells nxt
                (some (token.referenceOutboundLasers
                  (p.reorientInboundLaser a.orientation)).1)) nxt
                = some t :=
            ⟨(token.referenceOutboundLasers
                (p.reorientInboundLaser a.orientation)).1,
              by simp [setCell]⟩
          have hJState := foldInv_setCell_tok s A R' m hJt nxt token
            heq2 (token.referenceOutboundLasers
              (p.reorientInboundLaser a.orientation)).1
          split at hm'
          · exact Except.noConfusion hm'
          · next m1 heqP =>
            have hJ1 : FoldInv s A R' m1 :=
              (procResult_inv s A R' _ nxt _ hJState hn25 htokState).1
                m1 heqP
            have htok1 : ∃ t, m1.cells nxt = some t := by
              rw [procResult_cells_ok _ _ _ _ heqP]
              exact htokState
            exact (procResult_inv s A R' m1 nxt _ hJ1 hn25 htok1).1
              m' hm'
      · next hcell =>
        split at hm'
        · exact Except.noConfusion hm'
        · next hidx =>
          injection hm' with h
          subst h
          exact foldInv_mark_push_empty s A a R' m hJ nxt hnext hn25
            hcell (by omega)
  · intro m' hm'
    unfold procOne at hm'
    split at hm'
    · exact Except.noConfusion hm'
    · next nxt hnext =>
      have hn25 : nxt < 25 :=
        nextPosition_lt a nxt
          (hJ.jA25 a (hJ.jRsub a (List.mem_cons_self _ _))) hnext
      split at hm'
      · next token heq2 =>
        split at hm'
        · exact Except.noConfusion hm'
        · next p horient =>
          have htokState : ∃ t,
              (setCell m.cells nxt
                (some (token.referenceOutboundLasers
                  (p.reorientInboundLaser a.orientation)).1)) nxt
                = some t :=
            ⟨(token.referenceOutboundLasers
                (p.reorientInboundLaser a.orientation)).1,
              by simp [setCell]⟩
          have hJState := foldInv_setCell_tok s A R' m hJt nxt token
            heq2 (token.referenceOutboundLasers
              (p.reorientInboundLaser a.orientation)).1
          split at hm'
          · next me heqP =>
            injection hm' with h
            subst h
            exact (procResult_inv s A R' _ nxt _ hJState hn25
              htokState).2 me heqP
          · next m1 heqP =>
            have hJ1 : FoldInv s A R' m1 :=
              (procResult_inv s A R' _ nxt _ hJState hn25 htokState).1
                m1 heqP
            have htok1 : ∃ t, m1.cells nxt = some t := by
              rw [procResult_cells_ok _ _ _ _ heqP]
              exact htokState
            exact (procResult_inv s A R' m1 nxt _ hJ1 hn25 htok1).2
              m' hm'
      · next hcell =>
        have hfresh : m.visited nxt a.orientation = false :=
          hJ.jR3 a (List.mem_cons_self _ _) nxt hnext hcell
        split at hm'
        · injection hm' with h
          subst h
          show m.markOps + 1
            = visitedCount (mark m.visited nxt a.orientation)
          rw [visitedCount_mark _ _ _ hfresh hn25, hJ.jops]
        · exact Except.noConfusion hm'

/-- The whole laser loop preserves the inner-loop invariant; the panic
path keeps the mark-count equation. -/
theorem foldLasers_inv (s : Checker) (A : List ActiveLaser) :
    ∀ (R : List ActiveLaser) (m : Mid), FoldInv s A R m →
    (∀ m', foldLasers m R = Except.ok m' → FoldInv s A [] m')
    ∧ (∀ m', foldLasers m R = Except.error m' →
        m'.markOps = visitedCount m'.visited) := by
  intro R
  induction R with
  | nil =>
    intro m hJ
    constructor
    · intro m' h
      injection h with h
      subst h
      exact hJ
    · intro m' h
      exact Except.noConfusion h
  | cons a R' ih =>
    intro m hJ
    constructor
    · intro m' h
      unfold foldLasers at h
      split at h
      · exact Except.noConfusion h
      · next m1 hp1 =>
        exact (ih m1 ((procOne_inv s A a R' m hJ).1 m1 hp1)).1 m' h
    · intro m' h
      unfold foldLasers at h
      split at h
      · next me hp1 =>
        injection h with h
        subst h
        exact (procOne_inv s A a R' m hJ).2 me hp1
      · next m1 hp1 =>
        exact (ih m1 ((procOne_inv s A a R' m hJ).1 m1 hp1)).2 m' h

/-- One outer iteration of `Checker::check` preserves the invariant;
a non-final iteration performs at least one fresh mark, and a panicking
iteration keeps the mark-count equation. -/
theorem step_inv (c : Checker) (hInv : Inv c) :
    (∀ c', c.step = (c', false) → Inv c'
      ∧ (c'.hasActiveLasers = true →
          visitedCount c.laserVisited < visitedCount c'.laserVisited))
    ∧ (∀ c', c.step = (c', true) →
        c'.markOps = visitedCount c'.laserVisited) := by
  have key : ∀ (m0 : Mid),
      FoldInv c (c.activeLasers.filterMap id)
        (c.activeLasers.filterMap id) m0 →
      (∀ c', ((match foldLasers m0 (c.activeLasers.filterMap id) with
              | Except.error mm => (c.assemble mm, true)
              | Except.ok mm => (c.assemble mm, false)) : Checker × Bool)
            = (c', false) →
          Inv c' ∧ (c'.hasActiveLasers = true →
            visitedCount c.laserVisited < visitedCount c'.laserVisited))
      ∧ (∀ c', ((match foldLasers m0 (c.activeLasers.filterMap id) with
              | Except.error mm => (c.assemble mm, true)
              | Except.ok mm => (c.assemble mm, false)) : Checker × Bool)
            = (c', true) →
          c'.markOps = visitedCount c'.laserVisited) := by
    intro m0 hJ0
    cases hf : foldLasers m0 (c.activeLasers.filterMap id) with
    | error me =>
      constructor
      · intro c' h
        injection h with h1 h2
        exact Bool.noConfusion h2
      · intro c' h
        injection h with h1 h2
        rw [← h1]
        exact (foldLasers_inv c _ _ m0 hJ0).2 me hf
    | ok mo =>
      have hJ' : FoldInv c (c.activeLasers.filterMap id) [] mo :=
        (foldLasers_inv c _ _ m0 hJ0).1 mo hf
      constructor
      · intro c' h
        injection h with h1 h2
        rw [← h1]
        constructor
        · refine ⟨hJ'.j25, hJ'.jvb, hJ'.jI2, ?_, hJ'.jnodup, hJ'.jops,
            hJ'.jv25⟩
          intro p hp x hx hcell
          have hcell' : mo.cells x = none := hcell
          show mo.visited x p.orientation = false
          cases hv : mo.visited x p.orientation
          · rfl
          · exfalso
            rcases hJ'.jnew x p.orientation hv with h1 | ⟨t, ht⟩
              | ⟨b, hbA, hbo, hbx⟩
            · have hstart : c.laserVisited p.cellIndex p.orientation
                  = true :=
                hInv.i2 x p.orientation p.cellIndex
                  ((hJ'.jemp x).mp hcell') h1 hx
              rw [hJ'.jfresh p hp] at hstart
              exact Bool.noConfusion hstart
            · rw [ht] at hcell'
              exact Option.noConfusion hcell'
            · have hbx' : ActiveLaser.nextPosition
                  ⟨b.cellIndex, p.orientation⟩ = some x := by
                rw [← hbo]
                exact hbx
              have hbp : b.cellIndex = p.cellIndex :=
                nextPosition_inj _ _ _ _ hbx' hx
              have hbep : b = p := by
                have e1 : b = (⟨b.cellIndex, b.orientation⟩
                    : ActiveLaser) := rfl
                have e2 : p = (⟨p.cellIndex, p.orientation⟩
                    : ActiveLaser) := rfl
                rw [e1, e2, hbp, hbo]
              rw [hbep] at hbA
              have hstart := hInv.i1 p hbA
              rw [hJ'.jfresh p hp] at hstart
              exact Bool.noConfusion hstart
        · intro hact
          have hact2 : mo.newLasers.any (fun l => l.isSome) = true := hact
          rw [List.any_eq_true] at hact2
          obtain ⟨o, ho, hiso⟩ := hact2
          obtain ⟨p, hsome⟩ := Option.isSome_iff_exists.mp hiso
          have hp : p ∈ mo.newLasers.filterMap id :=
            List.mem_filterMap.mpr ⟨o, ho, by rw [hsome]; rfl⟩
          exact visitedCount_lt c.laserVisited mo.visited p.cellIndex
            p.orientation hJ'.jmono (hJ'.jfresh p hp) (hJ'.jvb p hp)
            (hJ'.j25 p hp)
      · intro c' h
        injection h with h1 h2
        exact Bool.noConfusion h2
  have hmain := key
    { cells := c.grid.cells
      visited := c.laserVisited
      newLasers := [none, none, none, none]
      newLaserIndex := 0
      unoriented := c.unorientedOccupiedCells
      flag := c.allLasersRemainOnBoard
      markOps := c.markOps } (foldInv_init c hInv)
  exact hmain

/-- With no active lasers the simulation loop exits at once, whatever
the fuel. -/
theorem runCheck_no_active (fuel : Nat) (c : Checker)
    (h : c.hasActiveLasers = false) :
    runCheck fuel c = some (c, false) := by
  cases fuel with
  | zero =>
    rw [runCheck, h, if_neg (by decide : ¬(false = true))]
  | succ f =>
    rw [runCheck, h, if_neg (by decide : ¬(false = true))]

/-- The simulation loop with fuel at least `101 - visitedCount` always
finishes, keeps the mark-count equation, and on a non-panic exit has no
active lasers left. -/
theorem runCheck_main : ∀ (fuel : Nat) (c : Checker), Inv c →
    101 ≤ visitedCount c.laserVisited + fuel →
    ∃ s p, runCheck fuel c = some (s, p)
      ∧ s.markOps = visitedCount s.laserVisited
      ∧ (p = false → s.hasActiveLasers = false) := by
  intro fuel
  induction fuel with
  | zero =>
    intro c hInv hfuel
    have := visitedCount_le c.laserVisited
    omega
  | succ fuel ih =>
    intro c hInv hfuel
    rw [runCheck]
    by_cases hact : c.hasActiveLasers = true
    · rw [if_pos hact]
      rcases hstep : c.step with ⟨c', pan⟩
      cases pan with
      | false =>
        obtain ⟨hInv', hlt⟩ := (step_inv c hInv).1 c' hstep
        by_cases hact' : c'.hasActiveLasers = true
        · have hlt2 := hlt hact'
          obtain ⟨s, p, hrun, hmark, hnolaser⟩ := ih c' hInv' (by omega)
          exact ⟨s, p, hrun, hmark, hnolaser⟩
        · have hact2 : c'.hasActiveLasers = false := by
            cases hb : c'.hasActiveLasers
            · rfl
            · exact absurd hb hact'
          exact ⟨c', false, runCheck_no_active fuel c' hact2, hInv'.i5,
            fun _ => hact2⟩
      | true =>
        have hmark := (step_inv c hInv).2 c' hstep
        exact ⟨c', true, rfl, hmark, fun hq => Bool.noConfusion hq⟩
    · rw [if_neg hact]
      refine ⟨c, false, rfl, hInv.i5, fun _ => ?_⟩
      cases hb : c.hasActiveLasers
      · rfl
      · exact absurd hb hact

/-- **C2** (confirmed).  For every board accepted by
`Checker::initialize` (in particular for every board whose Laser piece,
if present, is oriented — unoriented non-Laser tokens merely pause the
beam), `Checker::check()` terminates: the `while` loop finishes within
101 iterations of fuel (bounded by the 25×4 visited table), and each
`(cell, direction)` pair is marked at most once — the ghost counter of
executed `laser_visited[..] = true` assignments equals the number of
`true` entries of the final table, so no assignment ever hit an
already-`true` entry.  On a non-panicking exit no active lasers
remain. -/
theorem check_terminates (n : SolverNode) (c0 : Checker)
    (h : initChecker n = some c0) :
    ∃ s p, runCheck 101 c0 = some (s, p)
      ∧ (Checker.fromSolverNode n).check = some (s, p)
      ∧ s.markOps = visitedCount s.laserVisited
      ∧ (p = false → s.hasActiveLasers = false) := by
  have hInv := initChecker_inv n c0 h
  obtain ⟨s, p, hrun, hmark, hno⟩ :=
    runCheck_main 101 c0 hInv (by omega)
  refine ⟨s, p, hrun, ?_, hmark, hno⟩
  show (Checker.fromSolverNode n).initialize2.bind (runCheck 101)
    = some (s, p)
  have h2 : (Checker.fromSolverNode n).initialize2 = some c0 := by
    rw [← initChecker_eq]
    exact h
  rw [h2]
  exact hrun

/-- The C2 witness board: a Laser at cell 0 pointing North. -/
def c2Node : SolverNode :=
  { cells := fun i =>
      if i = 0 then
        some (Token.new TokenType.laser (some Orientation.north) false)
      else none
    tokensToBeAdded := []
    tokensToBeAddedShuffled := []
    targets := 0 }

/-- The checker state `Checker::initialize` produces on `c2Node`. -/
def c2Checker : Checker :=
  { grid := c2Node
    activeLasers := [some ⟨0, Orientation.north⟩, none, none, none]
    laserVisited := mark (fun _ _ => false) 0 Orientation.north
    unorientedOccupiedCells := []
    allLasersRemainOnBoard := true
    markOps := 1 }

/-- Witness for C2 at the concrete board `c2Node`. -/
theorem check_terminates_witness :
    ∃ s p, runCheck 101 c2Checker = some (s, p)
      ∧ (Checker.fromSolverNode c2Node).check = some (s, p)
      ∧ s.markOps = visitedCount s.laserVisited
      ∧ (p = false → s.hasActiveLasers = false) :=
  check_terminates c2Node c2Checker rfl

end LaserMaze
